import Mathlib

set_option linter.unusedVariables false

/-!
Verification of the LexSim extraction/fallback core (`backend/extractor.py`,
`backend/fallbacks.py`, `backend/schemas.py`) against its specification.

The Python code is shallowly embedded: strings are `List Char`, every scanner
is a structurally/well-founded recursive Lean function ported line by line
from the source, and stdlib calls (`json.loads`, `re` on the two fixed
patterns, `ast.literal_eval`, `hashlib.sha256`, `str.strip`/`split`/
`splitlines`) are modelled explicitly.  Python exceptions become `Except`
values which are caught exactly where the source catches them.
-/

namespace LexSim

/-- Characters of a Python `str`, in order. -/
abbrev Chars := List Char

/-- ASCII whitespace as recognized by Python `str.strip`/`str.split` and by
the regex class `\s` (the unicode-only whitespace characters never occur in
the inputs considered here). -/
def isPyWs (c : Char) : Bool :=
  c = ' ' || c = '\t' || c = '\n' || c = '\r' || c = '\x0b' || c = '\x0c'

/-- Whitespace skipped by Python `json.loads` between tokens: exactly
space, tab, newline, carriage return. -/
def isJsonWs (c : Char) : Bool :=
  c = ' ' || c = '\t' || c = '\n' || c = '\r'

/-- Drop trailing characters satisfying `p` (helper for `strip`). -/
def dropTrail (p : Char → Bool) (s : Chars) : Chars :=
  (s.reverse.dropWhile p).reverse

/-- Python `str.strip()`: remove leading and trailing whitespace. -/
def stripWs (s : Chars) : Chars :=
  dropTrail isPyWs (s.dropWhile isPyWs)

/-- Python `str.lower()` restricted to ASCII letters (the only case-carrying
characters reaching `lower` in this code base). -/
def pyLower (c : Char) : Char :=
  if 'A' ≤ c ∧ c ≤ 'Z' then Char.ofNat (c.toNat + 32) else c

/-- ASCII model of Python `ch.isalnum() or ch == "_"`, the identifier-part
test used by `_replace_unquoted_literals` for word boundaries. -/
def isIdentChar (c : Char) : Bool :=
  c.isAlphanum || c = '_'

/-! ## `_strip_json_comments` (extractor.py lines 93-142) -/

/-- Skip of a `//` line comment: the source advances `index` while the
current character is neither `\n` nor `\r`, leaving the newline itself to be
processed by the outer loop. -/
def skipLine : Chars → Chars
  | [] => []
  | c :: s => if c = '\n' ∨ c = '\r' then c :: s else skipLine s

/-- Skip of a `/* */` block comment body: the source scans while
`index + 1 < length`; on finding `*/` it resumes after it, and when the text
ends without `*/` the final character (if any) is handed back to the outer
loop unprocessed (the `while` guard stops one character early). -/
def skipBlock : Chars → Chars
  | [] => []
  | [c] => [c]
  | c :: c2 :: rest => if c = '*' ∧ c2 = '/' then rest else skipBlock (c2 :: rest)

/-- State machine of `_strip_json_comments`: `esc` is the `escape` flag,
`inStr` the `in_string` flag; characters are appended verbatim except for
`//` and `/* */` comments occurring outside strings (`s.head?` is the
source's `json_text[index + 1]` lookahead, absent at the end of the text).
The fuel argument only bounds the recursion (each step strictly consumes
input, so any fuel at least the input length is adequate, see
`scAux_fuel_irrelevant`). -/
def scAux : Nat → Bool → Bool → Chars → Chars
  | _, _, _, [] => []
  | 0, _, _, _ :: _ => []
  | fuel + 1, esc, inStr, c :: s =>
    if esc then c :: scAux fuel false inStr s
    else if c = '\\' then c :: scAux fuel true inStr s
    else if c = '"' then c :: scAux fuel false (!inStr) s
    else if !inStr && c = '/' && s.head? = some '/' then
      scAux fuel false inStr (skipLine s.tail)
    else if !inStr && c = '/' && s.head? = some '*' then
      scAux fuel false inStr (skipBlock s.tail)
    else c :: scAux fuel false inStr s

/-- Port of `_strip_json_comments`: strip C/C++ style comments that appear outside
of strings. -/
def strip_json_comments (s : Chars) : Chars := scAux s.length false false s

/-! ## `TRAILING_COMMA_PATTERN` and `_sanitize_json` (extractor.py 19, 145-150) -/

/-- Lookahead `(?=\s*[}\]])` of `TRAILING_COMMA_PATTERN`: the text ahead
starts with optional whitespace followed by `}` or `]`. -/
def closerAhead (s : Chars) : Bool :=
  match s.dropWhile isPyWs with
  | [] => false
  | c :: _ => c = '}' || c = ']'

/-- Model of `re.sub(TRAILING_COMMA_PATTERN, "", ·)`: delete every comma that is
immediately followed by optional whitespace and a closing `}` or `]`.  The
regex matches single commas and its lookahead consumes nothing, so the
substitution is a left-to-right scan deleting qualifying commas. -/
def sub_trailing_commas : Chars → Chars
  | [] => []
  | c :: s =>
    if c = ',' && closerAhead s then sub_trailing_commas s
    else c :: sub_trailing_commas s

/-- Port of `_sanitize_json`: strip comments, then remove trailing commas. -/
def sanitize_json (s : Chars) : Chars :=
  sub_trailing_commas (strip_json_comments s)

/-! ## `_replace_unquoted_literals` (extractor.py lines 22-72) -/

/-- One replacement attempt of `_replace_unquoted_literals` at the current
position: try each `(literal, replacement)` pair in order; a pair applies
when the text starts with `literal` here and neither the previous nor the
following character is an identifier character.  Returns the replacement,
the last character of the matched literal (the new `prev`), and the
remaining text.  (A hypothetical empty literal is rejected; the Python dict
used by the caller only holds `true`/`false`/`null`.) -/
def tryRep : List (Chars × Chars) → Option Char → Chars → Option (Chars × Char × Chars)
  | [], _, _ => none
  | (lit, rep) :: rest, prev, s =>
    if !lit.isEmpty && lit.isPrefixOf s then
      let after := s.drop lit.length
      let prevOk := match prev with
        | none => true
        | some p => !(isIdentChar p)
      let nxtOk := match after with
        | [] => true
        | n :: _ => !(isIdentChar n)
      if prevOk && nxtOk then some (rep, lit.getLastD ' ', after)
      else tryRep rest prev s
    else tryRep rest prev s

/-- State machine of `_replace_unquoted_literals`; `delim` is
`string_delimiter` (only meaningful while `inStr` is true).  The fuel only
bounds the recursion; every step strictly consumes input (a matched literal
is non-empty), so fuel equal to the input length is adequate. -/
def rulAux (reps : List (Chars × Chars)) :
    Nat → Bool → Bool → Char → Option Char → Chars → Chars
  | _, _, _, _, _, [] => []
  | 0, _, _, _, _, _ :: _ => []
  | fuel + 1, true, esc, delim, _, c :: s =>
    if esc then c :: rulAux reps fuel true false delim (some c) s
    else if c = '\\' then c :: rulAux reps fuel true true delim (some c) s
    else if c = delim then c :: rulAux reps fuel false false delim (some c) s
    else c :: rulAux reps fuel true false delim (some c) s
  | fuel + 1, false, _, delim, prev, c :: s =>
    if c = '"' ∨ c = '\'' then c :: rulAux reps fuel true false c (some c) s
    else
      match tryRep reps prev (c :: s) with
      | some (rep, last, after) =>
        rep ++ rulAux reps fuel false false delim (some last) after
      | none => c :: rulAux reps fuel false false delim (some c) s

/-- Port of `_replace_unquoted_literals`: replace bare literals while respecting
quoted strings.  The initial `string_delimiter` is the empty string in the
source; it is never read before being set, so any initial character works. -/
def replace_unquoted_literals (s : Chars) (reps : List (Chars × Chars)) : Chars :=
  rulAux reps s.length false false '"' none s

/-- The fixed replacement table `{"true": "True", "false": "False",
"null": "None"}` passed by `_coerce_python_literals` (dicts iterate in
insertion order). -/
def coerceReps : List (Chars × Chars) :=
  [("true".data, "True".data), ("false".data, "False".data),
   ("null".data, "None".data)]

/-! ## Model of Python `json.loads` (strict mode, as called by the extractor)

Python integers and floats are kept apart (`json.loads` returns `int` for an
integer literal and `float` otherwise); floats are represented exactly as
rationals.  The non-standard `NaN`/`Infinity` extension of CPython and lone
surrogate escapes are outside the model (the former parse to an error here,
the latter decode to U+FFFD); no input considered in this development
contains them. -/

inductive Json where
  | null
  | bool (b : Bool)
  | intVal (n : Int)
  | floatVal (q : ℚ)
  | str (s : String)
  | arr (elems : List Json)
  | obj (members : List (String × Json))
deriving Inhabited

/-- Value of a hex digit, if any. -/
def hexVal (c : Char) : Option Nat :=
  if '0' ≤ c ∧ c ≤ '9' then some (c.toNat - 48)
  else if 'a' ≤ c ∧ c ≤ 'f' then some (c.toNat - 87)
  else if 'A' ≤ c ∧ c ≤ 'F' then some (c.toNat - 55)
  else none

/-- Parse exactly four hex digits. -/
def parseHex4 : Chars → Option (Nat × Chars)
  | a :: b :: c :: d :: rest =>
    match hexVal a, hexVal b, hexVal c, hexVal d with
    | some x, some y, some z, some w => some (((x * 16 + y) * 16 + z) * 16 + w, rest)
    | _, _, _, _ => none
  | _ => none

/-- Body of a JSON string after the opening quote, in strict mode: raw
control characters are rejected, escapes are the eight simple ones plus
`\uXXXX` with UTF-16 surrogate-pair combination. -/
def pStringBody : Nat → Chars → Except String (Chars × Chars)
  | 0, _ => .error "recursion budget exhausted"
  | _ + 1, [] => .error "Unterminated string"
  | fuel + 1, c :: s =>
    if c = '"' then .ok ([], s)
    else if c = '\\' then
      match s with
      | [] => .error "Unterminated string"
      | e :: s2 =>
        if e = 'u' then
          match parseHex4 s2 with
          | none => .error "Invalid \\uXXXX escape"
          | some (n, s3) =>
            if 0xD800 ≤ n ∧ n ≤ 0xDBFF then
              match s3 with
              | '\\' :: 'u' :: s4 =>
                match parseHex4 s4 with
                | some (m, s5) =>
                  if 0xDC00 ≤ m ∧ m ≤ 0xDFFF then
                    (pStringBody fuel s5).map (fun (cs, r) =>
                      (Char.ofNat (0x10000 + (n - 0xD800) * 0x400 + (m - 0xDC00)) :: cs, r))
                  else
                    (pStringBody fuel s3).map (fun (cs, r) => ('�' :: cs, r))
                | none =>
                  (pStringBody fuel s3).map (fun (cs, r) => ('�' :: cs, r))
              | _ =>
                (pStringBody fuel s3).map (fun (cs, r) => ('�' :: cs, r))
            else if 0xDC00 ≤ n ∧ n ≤ 0xDFFF then
              (pStringBody fuel s3).map (fun (cs, r) => ('�' :: cs, r))
            else
              (pStringBody fuel s3).map (fun (cs, r) => (Char.ofNat n :: cs, r))
        else
          match
            (if e = '"' then some '"'
             else if e = '\\' then some '\\'
             else if e = '/' then some '/'
             else if e = 'b' then some '\x08'
             else if e = 'f' then some '\x0c'
             else if e = 'n' then some '\n'
             else if e = 'r' then some '\r'
             else if e = 't' then some '\t'
             else none) with
          | some d => (pStringBody fuel s2).map (fun (cs, r) => (d :: cs, r))
          | none => .error "Invalid \\escape"
    else if c.toNat < 0x20 then .error "Invalid control character"
    else (pStringBody fuel s).map (fun (cs, r) => (c :: cs, r))

/-- Digits to the natural number they denote. -/
def digitsToNat (ds : Chars) : Nat :=
  ds.foldl (fun a c => a * 10 + (c.toNat - 48)) 0

/-- JSON number token, following the grammar `(-?(0|[1-9]\d*))(\.\d+)?
([eE][-+]?\d+)?` used by the Python decoder: an integer literal yields an
`int`, any fractional part or exponent yields a `float`. -/
def pNumber (s : Chars) : Except String (Json × Chars) :=
  let signAndRest : Bool × Chars := match s with
    | '-' :: r => (true, r)
    | _ => (false, s)
  let neg := signAndRest.1
  let s1 := signAndRest.2
  match s1 with
  | [] => .error "Expecting value"
  | c :: r0 =>
    if ¬ c.isDigit then .error "Expecting value"
    else
      let ipRest : Chars × Chars :=
        if c = '0' then (['0'], r0)
        else (s1.takeWhile Char.isDigit, s1.dropWhile Char.isDigit)
      let ip := ipRest.1
      let r1 := ipRest.2
      let fracRest : Chars × Chars :=
        match r1 with
        | '.' :: d :: r2 =>
          if d.isDigit then
            ((d :: r2).takeWhile Char.isDigit, (d :: r2).dropWhile Char.isDigit)
          else ([], r1)
        | _ => ([], r1)
      let frac := fracRest.1
      let r2 := fracRest.2
      let expRest : Option Int × Chars :=
        match r2 with
        | e :: rest =>
          if e = 'e' ∨ e = 'E' then
            let signDigits : Bool × Chars := match rest with
              | '-' :: r => (true, r)
              | '+' :: r => (false, r)
              | _ => (false, rest)
            let ds := signDigits.2.takeWhile Char.isDigit
            if ds = [] then (none, r2)
            else
              let ev : Int := (digitsToNat ds : Int)
              (some (if signDigits.1 then -ev else ev),
               signDigits.2.dropWhile Char.isDigit)
          else (none, r2)
        | [] => (none, r2)
      let expVal := expRest.1
      let r3 := expRest.2
      if frac = [] ∧ expVal = none then
        let n : Int := (digitsToNat ip : Int)
        .ok (Json.intVal (if neg then -n else n), r1)
      else
        let mantissa : Int := (digitsToNat (ip ++ frac) : Int)
        let e10 : Int := (expVal.getD 0) - (frac.length : Int)
        let q : ℚ := (mantissa : ℚ) * (10 : ℚ) ^ e10
        .ok (Json.floatVal (if neg then -q else q), r3)

/-- Insert into an object keeping Python `dict` semantics: an existing key
keeps its position and gets the new value, a new key is appended. -/
def insertKV (kvs : List (String × Json)) (k : String) (v : Json) :
    List (String × Json) :=
  if kvs.any (fun p => p.1 = k) then
    kvs.map (fun p => if p.1 = k then (k, v) else p)
  else kvs ++ [(k, v)]

mutual

/-- One JSON value, after skipping leading whitespace. -/
def pValue : Nat → Chars → Except String (Json × Chars)
  | 0, _ => .error "recursion budget exhausted"
  | fuel + 1, s =>
    match s.dropWhile isJsonWs with
    | [] => .error "Expecting value"
    | c :: rest =>
      if c = '{' then pObjStart fuel rest
      else if c = '[' then pArrStart fuel rest
      else if c = '"' then
        (pStringBody fuel rest).map (fun (cs, r) => (Json.str (String.mk cs), r))
      else if c = 't' then
        if "rue".data.isPrefixOf rest then .ok (Json.bool true, rest.drop 3)
        else .error "Expecting value"
      else if c = 'f' then
        if "alse".data.isPrefixOf rest then .ok (Json.bool false, rest.drop 4)
        else .error "Expecting value"
      else if c = 'n' then
        if "ull".data.isPrefixOf rest then .ok (Json.null, rest.drop 3)
        else .error "Expecting value"
      else pNumber (c :: rest)

/-- Object body after the opening `{`. -/
def pObjStart : Nat → Chars → Except String (Json × Chars)
  | 0, _ => .error "recursion budget exhausted"
  | fuel + 1, s =>
    match s.dropWhile isJsonWs with
    | '}' :: rest => .ok (Json.obj [], rest)
    | other => pMembers fuel [] other

/-- Members of an object: key string, colon, value, then `,` or `}`. -/
def pMembers : Nat → List (String × Json) → Chars → Except String (Json × Chars)
  | 0, _, _ => .error "recursion budget exhausted"
  | fuel + 1, acc, s =>
    match s.dropWhile isJsonWs with
    | '"' :: rest =>
      match pStringBody fuel rest with
      | .error e => .error e
      | .ok (kcs, r1) =>
        match r1.dropWhile isJsonWs with
        | ':' :: r2 =>
          match pValue fuel r2 with
          | .error e => .error e
          | .ok (v, r3) =>
            let acc2 := insertKV acc (String.mk kcs) v
            match r3.dropWhile isJsonWs with
            | ',' :: r4 => pMembers fuel acc2 r4
            | '}' :: r4 => .ok (Json.obj acc2, r4)
            | _ => .error "Expecting comma delimiter"
        | _ => .error "Expecting colon delimiter"
    | _ => .error "Expecting property name enclosed in double quotes"

/-- Array body after the opening `[`. -/
def pArrStart : Nat → Chars → Except String (Json × Chars)
  | 0, _ => .error "recursion budget exhausted"
  | fuel + 1, s =>
    match s.dropWhile isJsonWs with
    | ']' :: rest => .ok (Json.arr [], rest)
    | other => pElems fuel [] other

/-- Elements of an array: value, then `,` or `]`. -/
def pElems : Nat → List Json → Chars → Except String (Json × Chars)
  | 0, _, _ => .error "recursion budget exhausted"
  | fuel + 1, acc, s =>
    match pValue fuel s with
    | .error e => .error e
    | .ok (v, r1) =>
      match r1.dropWhile isJsonWs with
      | ',' :: r2 => pElems fuel (acc ++ [v]) r2
      | ']' :: r2 => .ok (Json.arr (acc ++ [v]), r2)
      | _ => .error "Expecting comma delimiter"

end

/-- Model of `json.loads`: parse one value and require only whitespace after it.  The
fuel `s.length + 1` is an upper bound on the recursion depth, since every
recursive call strictly consumes input. -/
def jsonParse (s : Chars) : Except String Json :=
  match pValue (s.length + 1) s with
  | .error e => .error e
  | .ok (v, rest) =>
    if rest.dropWhile isJsonWs = [] then .ok v else .error "Extra data"

/-! ## `_find_matching_brace` (extractor.py lines 170-202) -/

/-- Scan state of `_find_matching_brace`: current index, depth (an integer:
the source lets it go negative), `in_string` and `escape` flags. -/
def fmbAux : Chars → Nat → Int → Bool → Bool → Option Nat
  | [], _, _, _, _ => none
  | c :: s, idx, depth, inStr, esc =>
    if esc then fmbAux s (idx + 1) depth inStr false
    else if c = '\\' then fmbAux s (idx + 1) depth inStr true
    else if c = '"' then fmbAux s (idx + 1) depth (!inStr) esc
    else if inStr then fmbAux s (idx + 1) depth inStr esc
    else if c = '{' then fmbAux s (idx + 1) (depth + 1) inStr esc
    else if c = '}' then
      if depth - 1 = 0 then some idx else fmbAux s (idx + 1) (depth - 1) inStr esc
    else fmbAux s (idx + 1) depth inStr esc

/-- Port of `_find_matching_brace`: index of the matching closing brace starting the
scan at `start`, or none if depth never returns to zero. -/
def find_matching_brace (raw : Chars) (start : Nat) : Option Nat :=
  fmbAux (raw.drop start) start 0 false false

/-! ## `JSON_BLOCK_PATTERN` and `_find_json_block` (extractor.py 15-18, 205-226) -/

/-- Does the text start with three backticks followed by `json`,
case-insensitively (the literal prefix of `JSON_BLOCK_PATTERN` under
`re.IGNORECASE`)? -/
def isOpenFenceAt : Chars → Bool
  | a :: b :: c :: d :: e :: f :: g :: _ =>
    a = '`' && b = '`' && c = '`' && pyLower d = 'j' && pyLower e = 's' &&
    pyLower f = 'o' && pyLower g = 'n'
  | _ => false

/-- Does the text start with three backticks? -/
def isTripleAt : Chars → Bool
  | a :: b :: c :: _ => a = '`' && b = '`' && c = '`'
  | _ => false

/-- First position at which `isOpenFenceAt` holds. -/
def fenceOpenAux : Chars → Nat → Option Nat
  | [], _ => none
  | c :: t, i => if isOpenFenceAt (c :: t) then some i else fenceOpenAux t (i + 1)

/-- First position at which `isTripleAt` holds. -/
def tripleAux : Chars → Nat → Option Nat
  | [], _ => none
  | c :: t, i => if isTripleAt (c :: t) then some i else tripleAux t (i + 1)

/-- Model of `re.search(JSON_BLOCK_PATTERN, raw)`: the leftmost match starts at the
first occurrence of the case-insensitive literal `` ```json `` and ends at
the first `` ``` `` at least 7 characters later; the greedy `\s*` fringes
around the lazy group mean the captured group is the in-between text with
leading and trailing whitespace removed.  If the first opening fence has no
closing fence, no later opening fence can have one, so the search fails. -/
def findFencedBlock (raw : Chars) : Option (Chars × Nat × Nat) :=
  match fenceOpenAux raw 0 with
  | none => none
  | some i =>
    let afterOpen := raw.drop (i + 7)
    match tripleAux afterOpen 0 with
    | none => none
    | some kRel =>
      some (stripWs (afterOpen.take kRel), i, i + 7 + kRel + 3)

/-- First index `≥ i` holding character `c` (`str.find(c, i)`). -/
def findCharAux (c : Char) : Chars → Nat → Option Nat
  | [], _ => none
  | x :: s, i => if x = c then some i else findCharAux c s (i + 1)

/-- Python `raw.find(c, start)` (as an `Option` instead of `-1`). -/
def findCharFrom (raw : Chars) (c : Char) (start : Nat) : Option Nat :=
  (findCharAux c (raw.drop start) 0).map (· + start)

/-- Brace-scan loop of `_find_json_block`: find the next `{`; if the brace
matcher fails the loop `break`s (no later occurrence is tried); otherwise the
delimited substring is returned if it parses as JSON, else the scan resumes
after the brace.  The fuel only bounds the loop; the scan position strictly
increases and stays below the length, so fuel `raw.length + 1` is adequate. -/
def braceScanLoop (raw : Chars) : Nat → Nat → Option Chars × Option (Nat × Nat)
  | 0, _ => (none, none)
  | fuel + 1, pos =>
    match findCharFrom raw '{' pos with
    | none => (none, none)
    | some st =>
      match find_matching_brace raw st with
      | none => (none, none)
      | some en =>
        let candidate := (raw.take (en + 1)).drop st
        if (jsonParse candidate).isOk then (some candidate, some (st, en + 1))
        else braceScanLoop raw fuel (st + 1)

/-- Port of `_find_json_block`: prefer the fenced block (its inner text is returned
whether or not it parses); otherwise run the brace scan. -/
def find_json_block (raw : Chars) : Option Chars × Option (Nat × Nat) :=
  match findFencedBlock raw with
  | some (g, a, b) => (some g, some (a, b))
  | none => braceScanLoop raw (raw.length + 1) 0

/-! ## The schema (schemas.py): nested record types

Enum-constrained (`Literal[...]`) fields are carried as `String` together
with the validator below, mirroring the closed sets in the source.  `float`
fields are carried as exact rationals, `int` fields as integers. -/

structure JSONMeta where
  titulo : String
  jurisdiccion : String
  materia : String
  nivel : String
  objetivo_didactico : String
  duracion_minutos : Int

structure JSONPersonaje where
  nombre : String
  rol : String
  bio : String
  objetivos : List String
  sesgos : List String

structure JSONCronologia where
  t : String
  evento : String

structure JSONPlanteamiento where
  tipo : String
  cargos_o_pretensiones : List String
  estandar_probatorio : String
  notas : String

structure JSONPruebaDocumental where
  id : String
  descripcion : String
  origen : String
  autenticidad_custodia : String
  posibles_objeciones : List String

structure JSONPruebaTestimonial where
  id : String
  testigo : String
  alcance : String
  riesgos_credibilidad : List String
  contrapreguntas_sugeridas : List String

structure JSONPruebaPericial where
  id : String
  area : String
  metodo : String
  limites : String
  validez : String

structure JSONPruebaDigitalFisica where
  id : String
  tipo : String
  descripcion : String
  hash : String
  metadatos : List (String × String)
  cadena_custodia : String

structure JSONPruebas where
  documental : List JSONPruebaDocumental
  testimonial : List JSONPruebaTestimonial
  pericial : List JSONPruebaPericial
  digital_fisica : List JSONPruebaDigitalFisica

structure JSONInterrogatorio where
  tipo : String
  a_quien : String
  preguntas : List String

structure JSONObjecion where
  objecion : String
  fundamento : String

structure JSONApertura where
  parte_1 : String
  parte_2 : String

structure JSONCierre where
  parte_1 : String
  parte_2 : String

structure JSONGuion where
  instrucciones_iniciales_juez : String
  apertura : JSONApertura
  interrogatorios : List JSONInterrogatorio
  objeciones_tipicas : List JSONObjecion
  cierre : JSONCierre
  instrucciones_finales_juez : String

structure JSONMatrizVeredicto where
  criterio : String
  peso : ℚ
  observaciones : String

structure JSONResultadoAlternativo where
  escenario : String
  descripcion : String

structure JSONDecision where
  criterios : List String
  matriz_veredicto : List JSONMatrizVeredicto
  resultados_alternativos : List JSONResultadoAlternativo

structure JSONRubrica where
  criterio : String
  niveles : List (String × String)
  puntaje_max : Int

structure JSONGlosario where
  termino : String
  definicion : String

structure SimulationJSON where
  meta : JSONMeta
  personajes : List JSONPersonaje
  cronologia : List JSONCronologia
  planteamiento_juridico : JSONPlanteamiento
  pruebas : JSONPruebas
  guion : JSONGuion
  decision : JSONDecision
  banco_preguntas : List String
  rubrica : List JSONRubrica
  variantes : List String
  glosario : List JSONGlosario

/-! ## Schema validation (`SimulationJSON.parse_obj`)

Model of pydantic construction from a parsed JSON tree: a missing required
field, a mistyped primitive, a value outside a `Literal` enum, or a
malformed list element each reject the whole record.  (The model keeps the
strict core of pydantic v1 and leaves out its lenient cross-type coercions,
which none of the inputs considered here exercises.) -/

def jGetStr : Json → Except String String
  | Json.str s => .ok s
  | _ => .error "str type expected"

def jGetInt : Json → Except String Int
  | Json.intVal n => .ok n
  | _ => .error "value is not a valid integer"

def jGetFloat : Json → Except String ℚ
  | Json.intVal n => .ok (n : ℚ)
  | Json.floatVal q => .ok q
  | _ => .error "value is not a valid float"

def jGetArr : Json → Except String (List Json)
  | Json.arr xs => .ok xs
  | _ => .error "value is not a valid list"

def jGetObj : Json → Except String (List (String × Json))
  | Json.obj kvs => .ok kvs
  | _ => .error "value is not a valid dict"

def jField (kvs : List (String × Json)) (name : String) : Except String Json :=
  match kvs.find? (fun p => p.1 = name) with
  | some p => .ok p.2
  | none => .error "field required"

def jLitStr (allowed : List String) (j : Json) : Except String String := do
  let s ← jGetStr j
  if allowed.contains s then pure s
  else .error "unexpected value; permitted values are the declared literals"

def jGetStrList (j : Json) : Except String (List String) := do
  let xs ← jGetArr j
  xs.mapM jGetStr

def jGetStrDict (j : Json) : Except String (List (String × String)) := do
  let kvs ← jGetObj j
  kvs.mapM (fun p => do
    let v ← jGetStr p.2
    pure (p.1, v))

/-- The `Literal` role values of `JSONPersonaje.rol`. -/
def rolValues : List String :=
  ["juez", "fiscal", "defensa", "demandante", "demandado", "testigo",
   "perito", "policia", "otro"]

/-- The `Literal` values of `JSONMeta.nivel` (and `SimulateRequest.nivel`). -/
def nivelValues : List String := ["basico", "intermedio", "avanzado"]

/-- The `Literal` values of `JSONPlanteamiento.tipo` (and
`SimulateRequest.materia`). -/
def tipoValues : List String := ["penal", "civil", "laboral", "administrativo", "otro"]

def vMeta (j : Json) : Except String JSONMeta := do
  let o ← jGetObj j
  let titulo ← jField o "titulo" >>= jGetStr
  let jurisdiccion ← jField o "jurisdiccion" >>= jGetStr
  let materia ← jField o "materia" >>= jGetStr
  let nivel ← jField o "nivel" >>= jLitStr nivelValues
  let objetivo ← jField o "objetivo_didactico" >>= jGetStr
  let dur ← jField o "duracion_minutos" >>= jGetInt
  pure ⟨titulo, jurisdiccion, materia, nivel, objetivo, dur⟩

def vPersonaje (j : Json) : Except String JSONPersonaje := do
  let o ← jGetObj j
  let nombre ← jField o "nombre" >>= jGetStr
  let rol ← jField o "rol" >>= jLitStr rolValues
  let bio ← jField o "bio" >>= jGetStr
  let objetivos ← jField o "objetivos" >>= jGetStrList
  let sesgos ← jField o "sesgos" >>= jGetStrList
  pure ⟨nombre, rol, bio, objetivos, sesgos⟩

def vCronologia (j : Json) : Except String JSONCronologia := do
  let o ← jGetObj j
  let t ← jField o "t" >>= jGetStr
  let evento ← jField o "evento" >>= jGetStr
  pure ⟨t, evento⟩

def vPlanteamiento (j : Json) : Except String JSONPlanteamiento := do
  let o ← jGetObj j
  let tipo ← jField o "tipo" >>= jLitStr tipoValues
  let cargos ← jField o "cargos_o_pretensiones" >>= jGetStrList
  let estandar ← jField o "estandar_probatorio" >>= jGetStr
  let notas ← jField o "notas" >>= jGetStr
  pure ⟨tipo, cargos, estandar, notas⟩

def vDocumental (j : Json) : Except String JSONPruebaDocumental := do
  let o ← jGetObj j
  let id ← jField o "id" >>= jGetStr
  let descripcion ← jField o "descripcion" >>= jGetStr
  let origen ← jField o "origen" >>= jGetStr
  let aut ← jField o "autenticidad_custodia" >>= jGetStr
  let obj ← jField o "posibles_objeciones" >>= jGetStrList
  pure ⟨id, descripcion, origen, aut, obj⟩

def vTestimonial (j : Json) : Except String JSONPruebaTestimonial := do
  let o ← jGetObj j
  let id ← jField o "id" >>= jGetStr
  let testigo ← jField o "testigo" >>= jGetStr
  let alcance ← jField o "alcance" >>= jGetStr
  let riesgos ← jField o "riesgos_credibilidad" >>= jGetStrList
  let contra ← jField o "contrapreguntas_sugeridas" >>= jGetStrList
  pure ⟨id, testigo, alcance, riesgos, contra⟩

def vPericial (j : Json) : Except String JSONPruebaPericial := do
  let o ← jGetObj j
  let id ← jField o "id" >>= jGetStr
  let area ← jField o "area" >>= jGetStr
  let metodo ← jField o "metodo" >>= jGetStr
  let limites ← jField o "limites" >>= jGetStr
  let validez ← jField o "validez" >>= jGetStr
  pure ⟨id, area, metodo, limites, validez⟩

def vDigitalFisica (j : Json) : Except String JSONPruebaDigitalFisica := do
  let o ← jGetObj j
  let id ← jField o "id" >>= jGetStr
  let tipo ← jField o "tipo" >>= jLitStr ["digital", "fisica"]
  let descripcion ← jField o "descripcion" >>= jGetStr
  let hash ← jField o "hash" >>= jGetStr
  let metadatos ← jField o "metadatos" >>= jGetStrDict
  let cadena ← jField o "cadena_custodia" >>= jGetStr
  pure ⟨id, tipo, descripcion, hash, metadatos, cadena⟩

def vPruebas (j : Json) : Except String JSONPruebas := do
  let o ← jGetObj j
  let documental ← jField o "documental" >>= jGetArr >>= (·.mapM vDocumental)
  let testimonial ← jField o "testimonial" >>= jGetArr >>= (·.mapM vTestimonial)
  let pericial ← jField o "pericial" >>= jGetArr >>= (·.mapM vPericial)
  let digital ← jField o "digital_fisica" >>= jGetArr >>= (·.mapM vDigitalFisica)
  pure ⟨documental, testimonial, pericial, digital⟩

def vInterrogatorio (j : Json) : Except String JSONInterrogatorio := do
  let o ← jGetObj j
  let tipo ← jField o "tipo" >>= jLitStr ["directo", "contrainterrogatorio"]
  let aQuien ← jField o "a_quien" >>= jGetStr
  let preguntas ← jField o "preguntas" >>= jGetStrList
  pure ⟨tipo, aQuien, preguntas⟩

def vObjecion (j : Json) : Except String JSONObjecion := do
  let o ← jGetObj j
  let objecion ← jField o "objecion" >>= jGetStr
  let fundamento ← jField o "fundamento" >>= jGetStr
  pure ⟨objecion, fundamento⟩

def vApertura (j : Json) : Except String JSONApertura := do
  let o ← jGetObj j
  let p1 ← jField o "parte_1" >>= jGetStr
  let p2 ← jField o "parte_2" >>= jGetStr
  pure ⟨p1, p2⟩

def vCierre (j : Json) : Except String JSONCierre := do
  let o ← jGetObj j
  let p1 ← jField o "parte_1" >>= jGetStr
  let p2 ← jField o "parte_2" >>= jGetStr
  pure ⟨p1, p2⟩

def vGuion (j : Json) : Except String JSONGuion := do
  let o ← jGetObj j
  let init ← jField o "instrucciones_iniciales_juez" >>= jGetStr
  let apertura ← jField o "apertura" >>= vApertura
  let inter ← jField o "interrogatorios" >>= jGetArr >>= (·.mapM vInterrogatorio)
  let objeciones ← jField o "objeciones_tipicas" >>= jGetArr >>= (·.mapM vObjecion)
  let cierre ← jField o "cierre" >>= vCierre
  let fin ← jField o "instrucciones_finales_juez" >>= jGetStr
  pure ⟨init, apertura, inter, objeciones, cierre, fin⟩

def vMatriz (j : Json) : Except String JSONMatrizVeredicto := do
  let o ← jGetObj j
  let criterio ← jField o "criterio" >>= jGetStr
  let peso ← jField o "peso" >>= jGetFloat
  let obs ← jField o "observaciones" >>= jGetStr
  pure ⟨criterio, peso, obs⟩

def vResultado (j : Json) : Except String JSONResultadoAlternativo := do
  let o ← jGetObj j
  let escenario ← jField o "escenario" >>= jGetStr
  let descripcion ← jField o "descripcion" >>= jGetStr
  pure ⟨escenario, descripcion⟩

def vDecision (j : Json) : Except String JSONDecision := do
  let o ← jGetObj j
  let criterios ← jField o "criterios" >>= jGetStrList
  let matriz ← jField o "matriz_veredicto" >>= jGetArr >>= (·.mapM vMatriz)
  let resultados ← jField o "resultados_alternativos" >>= jGetArr >>= (·.mapM vResultado)
  pure ⟨criterios, matriz, resultados⟩

def vRubrica (j : Json) : Except String JSONRubrica := do
  let o ← jGetObj j
  let criterio ← jField o "criterio" >>= jGetStr
  let niveles ← jField o "niveles" >>= jGetStrDict
  let puntaje ← jField o "puntaje_max" >>= jGetInt
  pure ⟨criterio, niveles, puntaje⟩

def vGlosario (j : Json) : Except String JSONGlosario := do
  let o ← jGetObj j
  let termino ← jField o "termino" >>= jGetStr
  let definicion ← jField o "definicion" >>= jGetStr
  pure ⟨termino, definicion⟩

/-- Model of `SimulationJSON.parse_obj`: validate a parsed JSON tree into the nested
record, all-or-nothing. -/
def validateSimulationJSON (j : Json) : Except String SimulationJSON := do
  let o ← jGetObj j
  let meta ← jField o "meta" >>= vMeta
  let personajes ← jField o "personajes" >>= jGetArr >>= (·.mapM vPersonaje)
  let cronologia ← jField o "cronologia" >>= jGetArr >>= (·.mapM vCronologia)
  let plante ← jField o "planteamiento_juridico" >>= vPlanteamiento
  let pruebas ← jField o "pruebas" >>= vPruebas
  let guion ← jField o "guion" >>= vGuion
  let decision ← jField o "decision" >>= vDecision
  let banco ← jField o "banco_preguntas" >>= jGetStrList
  let rubrica ← jField o "rubrica" >>= jGetArr >>= (·.mapM vRubrica)
  let variantes ← jField o "variantes" >>= jGetStrList
  let glosario ← jField o "glosario" >>= jGetArr >>= (·.mapM vGlosario)
  pure ⟨meta, personajes, cronologia, plante, pruebas, guion, decision,
        banco, rubrica, variantes, glosario⟩

/-! ## Model of `ast.literal_eval` and `json.dumps`
(the third sanitizer stage, `_coerce_python_literals`)

`ast.literal_eval` is modelled on the literal fragment the sanitized JSON
candidates can reach: `True`/`False`/`None`, signed int/float literals,
single- or double-quoted strings with the common escapes, and list, tuple,
dict and set displays, each admitting a trailing comma.  Exotic forms
(triple quotes, raw/byte strings, digit underscores, complex numbers,
string-literal concatenation) are parse errors in the model; the caller
treats every parse error identically by returning the original text. -/

inductive PyObj where
  | none
  | bool (b : Bool)
  | intVal (n : Int)
  | floatVal (q : ℚ)
  | str (s : String)
  | listVal (xs : List PyObj)
  | tupleVal (xs : List PyObj)
  | setVal (xs : List PyObj)
  | dictVal (kvs : List (PyObj × PyObj))

/-- Body of a Python string literal with delimiter `q`; unknown escapes keep
the backslash (CPython behaviour). -/
def pyStringBody (q : Char) : Nat → Chars → Except String (Chars × Chars)
  | 0, _ => .error "recursion budget exhausted"
  | _ + 1, [] => .error "unterminated string literal"
  | fuel + 1, c :: s =>
    if c = q then .ok ([], s)
    else if c = '\\' then
      match s with
      | [] => .error "unterminated string literal"
      | e :: s2 =>
        if e = 'x' then
          match s2 with
          | a :: b :: s3 =>
            match hexVal a, hexVal b with
            | some x, some y =>
              (pyStringBody q fuel s3).map (fun (cs, r) => (Char.ofNat (x * 16 + y) :: cs, r))
            | _, _ => .error "invalid \\x escape"
          | _ => .error "invalid \\x escape"
        else if e = 'u' then
          match parseHex4 s2 with
          | some (n, s3) =>
            (pyStringBody q fuel s3).map (fun (cs, r) =>
              ((if 0xD800 ≤ n ∧ n ≤ 0xDFFF then '�' else Char.ofNat n) :: cs, r))
          | none => .error "invalid \\u escape"
        else
          match
            (if e = '\\' then some '\\'
             else if e = '\'' then some '\''
             else if e = '"' then some '"'
             else if e = 'n' then some '\n'
             else if e = 't' then some '\t'
             else if e = 'r' then some '\r'
             else if e = 'b' then some '\x08'
             else if e = 'f' then some '\x0c'
             else if e = 'v' then some '\x0b'
             else if e = '0' then some '\x00'
             else none) with
          | some d => (pyStringBody q fuel s2).map (fun (cs, r) => (d :: cs, r))
          | none =>
            (pyStringBody q fuel s2).map (fun (cs, r) => ('\\' :: e :: cs, r))
    else (pyStringBody q fuel s).map (fun (cs, r) => (c :: cs, r))

/-- Python numeric literal (after an optional sign handled by the caller):
digits with optional fraction and exponent; `1.`, `.5` and `1.e3` are
accepted as floats, as in Python. -/
def pyNumber (s : Chars) : Except String (PyObj × Chars) :=
  let ip := s.takeWhile Char.isDigit
  let r1 := s.dropWhile Char.isDigit
  let fracPart : Option Chars × Chars :=
    match r1 with
    | '.' :: r2 => (some (r2.takeWhile Char.isDigit), r2.dropWhile Char.isDigit)
    | _ => (none, r1)
  let frac := fracPart.1
  let r2 := fracPart.2
  if ip = [] ∧ (frac = none ∨ frac = some []) then .error "malformed literal"
  else
    let expPart : Option Int × Chars :=
      match r2 with
      | e :: rest =>
        if e = 'e' ∨ e = 'E' then
          let signDigits : Bool × Chars := match rest with
            | '-' :: r => (true, r)
            | '+' :: r => (false, r)
            | _ => (false, rest)
          let ds := signDigits.2.takeWhile Char.isDigit
          if ds = [] then (none, r2)
          else
            let ev : Int := (digitsToNat ds : Int)
            (some (if signDigits.1 then -ev else ev),
             signDigits.2.dropWhile Char.isDigit)
        else (none, r2)
      | [] => (none, r2)
    let expVal := expPart.1
    let r3 := expPart.2
    if frac = none ∧ expVal = none then
      .ok (PyObj.intVal (digitsToNat ip : Int), r1)
    else
      let fr := frac.getD []
      let mantissa : Int := (digitsToNat (ip ++ fr) : Int)
      let e10 : Int := (expVal.getD 0) - (fr.length : Int)
      .ok (PyObj.floatVal ((mantissa : ℚ) * (10 : ℚ) ^ e10), r3)

mutual

/-- One Python literal, after skipping whitespace. -/
def pyValue : Nat → Chars → Except String (PyObj × Chars)
  | 0, _ => .error "recursion budget exhausted"
  | fuel + 1, s =>
    match s.dropWhile isPyWs with
    | [] => .error "malformed literal"
    | c :: rest =>
      if c = '\'' ∨ c = '"' then
        (pyStringBody c fuel rest).map (fun (cs, r) => (PyObj.str (String.mk cs), r))
      else if c = '[' then pySeq fuel ']' [] rest
      else if c = '(' then pySeq fuel ')' [] rest
      else if c = '{' then pyBrace fuel rest
      else if c = 'T' then
        if "rue".data.isPrefixOf rest then .ok (PyObj.bool true, rest.drop 3)
        else .error "malformed literal"
      else if c = 'F' then
        if "alse".data.isPrefixOf rest then .ok (PyObj.bool false, rest.drop 4)
        else .error "malformed literal"
      else if c = 'N' then
        if "one".data.isPrefixOf rest then .ok (PyObj.none, rest.drop 3)
        else .error "malformed literal"
      else if c = '-' ∨ c = '+' then
        match pyNumber rest with
        | .ok (PyObj.intVal n, r) =>
          .ok (PyObj.intVal (if c = '-' then -n else n), r)
        | .ok (PyObj.floatVal q, r) =>
          .ok (PyObj.floatVal (if c = '-' then -q else q), r)
        | .ok _ => .error "malformed literal"
        | .error e => .error e
      else if c.isDigit ∨ c = '.' then pyNumber (c :: rest)
      else .error "malformed literal"

/-- Elements of a list or tuple display up to the closer, with an optional
trailing comma. -/
def pySeq : Nat → Char → List PyObj → Chars → Except String (PyObj × Chars)
  | 0, _, _, _ => .error "recursion budget exhausted"
  | fuel + 1, closer, acc, s =>
    match s.dropWhile isPyWs with
    | c :: rest =>
      if c = closer then
        .ok (if closer = ']' then PyObj.listVal acc else PyObj.tupleVal acc, rest)
      else
        match pyValue fuel s with
        | .error e => .error e
        | .ok (v, r1) =>
          match r1.dropWhile isPyWs with
          | ',' :: r2 => pySeq fuel closer (acc ++ [v]) r2
          | c2 :: r2 =>
            if c2 = closer then
              .ok (if closer = ']' then PyObj.listVal (acc ++ [v])
                   else PyObj.tupleVal (acc ++ [v]), r2)
            else .error "malformed literal"
          | [] => .error "malformed literal"
    | [] => .error "malformed literal"

/-- A `{...}` display: empty means dict; the shape after the first element
decides between dict and set. -/
def pyBrace : Nat → Chars → Except String (PyObj × Chars)
  | 0, _ => .error "recursion budget exhausted"
  | fuel + 1, s =>
    match s.dropWhile isPyWs with
    | '}' :: rest => .ok (PyObj.dictVal [], rest)
    | _ =>
      match pyValue fuel s with
      | .error e => .error e
      | .ok (v, r1) =>
        match r1.dropWhile isPyWs with
        | ':' :: r2 => pyDict fuel [] v r2
        | ',' :: r2 => pySet fuel [v] r2
        | '}' :: r2 => .ok (PyObj.setVal [v], r2)
        | _ => .error "malformed literal"

/-- Remaining members of a dict display, given the pending key. -/
def pyDict : Nat → List (PyObj × PyObj) → PyObj → Chars →
    Except String (PyObj × Chars)
  | 0, _, _, _ => .error "recursion budget exhausted"
  | fuel + 1, acc, key, s =>
    match pyValue fuel s with
    | .error e => .error e
    | .ok (v, r1) =>
      let acc2 := acc ++ [(key, v)]
      match r1.dropWhile isPyWs with
      | '}' :: r2 => .ok (PyObj.dictVal acc2, r2)
      | ',' :: r2 =>
        match r2.dropWhile isPyWs with
        | '}' :: r3 => .ok (PyObj.dictVal acc2, r3)
        | _ =>
          match pyValue fuel r2 with
          | .error e => .error e
          | .ok (k2, r3) =>
            match r3.dropWhile isPyWs with
            | ':' :: r4 => pyDict fuel acc2 k2 r4
            | _ => .error "malformed literal"
      | _ => .error "malformed literal"

/-- Remaining elements of a set display. -/
def pySet : Nat → List PyObj → Chars → Except String (PyObj × Chars)
  | 0, _, _ => .error "recursion budget exhausted"
  | fuel + 1, acc, s =>
    match s.dropWhile isPyWs with
    | '}' :: rest => .ok (PyObj.setVal acc, rest)
    | _ =>
      match pyValue fuel s with
      | .error e => .error e
      | .ok (v, r1) =>
        match r1.dropWhile isPyWs with
        | ',' :: r2 => pySet fuel (acc ++ [v]) r2
        | '}' :: r2 => .ok (PyObj.setVal (acc ++ [v]), r2)
        | _ => .error "malformed literal"

end

/-- Model of `ast.literal_eval`: parse exactly one literal surrounded only by
whitespace. -/
def pyLiteralEval (s : Chars) : Except String PyObj :=
  match pyValue (s.length + 1) s with
  | .error e => .error e
  | .ok (v, rest) =>
    if rest.dropWhile isPyWs = [] then .ok v else .error "malformed literal"

/-- Decimal digits of a natural number. -/
def natDigits (n : Nat) : Chars := (toString n).data

/-- Python `repr` of an integer. -/
def intRepr (n : Int) : Chars :=
  if n < 0 then '-' :: natDigits n.natAbs else natDigits n.natAbs

/-- Decimal rendering of a rational as Python would print the float, for
exactly-representable decimal fractions (the only floats these code paths
produce); up to 17 fractional digits are emitted. -/
def ratRepr (q : ℚ) : Chars :=
  let sign : Chars := if q < 0 then ['-'] else []
  let aq := |q|
  let ip := aq.floor.toNat
  let fracNum : ℚ := aq - (ip : ℚ)
  let scaled : Nat := (fracNum * (10 : ℚ) ^ (17 : ℕ)).floor.toNat
  let fracDigits :=
    let raw := natDigits scaled
    let padded := List.replicate (17 - raw.length) '0' ++ raw
    let trimmed := dropTrail (· = '0') padded
    if trimmed = [] then ['0'] else trimmed
  sign ++ natDigits ip ++ '.' :: fracDigits

/-- JSON string escaping of `json.dumps` with the default
`ensure_ascii=True`: quote, backslash and control characters use the short
escapes, all non-ASCII characters become `\uXXXX` (with surrogate pairs
above U+FFFF). -/
def jsonEscapeChar (c : Char) : Chars :=
  if c = '"' then ['\\', '"']
  else if c = '\\' then ['\\', '\\']
  else if c = '\n' then ['\\', 'n']
  else if c = '\t' then ['\\', 't']
  else if c = '\r' then ['\\', 'r']
  else if c = '\x08' then ['\\', 'b']
  else if c = '\x0c' then ['\\', 'f']
  else
    let n := c.toNat
    let hex4 (m : Nat) : Chars :=
      (List.range 4).reverse.map (fun i =>
        let d := m / 16 ^ i % 16
        if d < 10 then Char.ofNat (48 + d) else Char.ofNat (87 + d))
    if n < 0x20 then '\\' :: 'u' :: hex4 n
    else if n < 0x7f then [c]
    else if n ≤ 0xffff then '\\' :: 'u' :: hex4 n
    else
      let m := n - 0x10000
      '\\' :: 'u' :: hex4 (0xD800 + m / 0x400) ++ '\\' :: 'u' :: hex4 (0xDC00 + m % 0x400)

/-- Serialized form of a string under `json.dumps`. -/
def dumpsStr (s : String) : Chars :=
  '"' :: (s.data.flatMap jsonEscapeChar) ++ ['"']

/-- Key conversion of `json.dumps`: string keys verbatim, int/float/bool/
`None` keys coerced to their text form, any other key raises `TypeError`. -/
def dumpsKey : PyObj → Option Chars
  | PyObj.str s => some (dumpsStr s)
  | PyObj.intVal n => some (dumpsStr (String.mk (intRepr n)))
  | PyObj.floatVal q => some (dumpsStr (String.mk (ratRepr q)))
  | PyObj.bool b => some (dumpsStr (if b then "true" else "false"))
  | PyObj.none => some (dumpsStr "null")
  | _ => Option.none

/-- Join serialized parts with `", "`. -/
def joinParts (parts : List Chars) : Chars :=
  (parts.intersperse [',', ' ']).flatten

mutual

/-- Model of `json.dumps` with default arguments (separators `", "` and `": "`);
`none` models a raised `TypeError` (sets and non-primitive dict keys). -/
def pyDumps : PyObj → Option Chars
  | PyObj.none => some "null".data
  | PyObj.bool b => some (if b then "true".data else "false".data)
  | PyObj.intVal n => some (intRepr n)
  | PyObj.floatVal q => some (ratRepr q)
  | PyObj.str s => some (dumpsStr s)
  | PyObj.listVal xs =>
    match dumpsList xs with
    | some parts => some ('[' :: joinParts parts ++ [']'])
    | Option.none => Option.none
  | PyObj.tupleVal xs =>
    match dumpsList xs with
    | some parts => some ('[' :: joinParts parts ++ [']'])
    | Option.none => Option.none
  | PyObj.setVal _ => Option.none
  | PyObj.dictVal kvs =>
    match dumpsKVs kvs with
    | some parts => some ('{' :: joinParts parts ++ ['}'])
    | Option.none => Option.none

/-- Serialize the elements of a list/tuple display. -/
def dumpsList : List PyObj → Option (List Chars)
  | [] => some []
  | x :: xs =>
    match pyDumps x, dumpsList xs with
    | some a, some b => some (a :: b)
    | _, _ => Option.none

/-- Serialize dict members as `key: value` parts. -/
def dumpsKVs : List (PyObj × PyObj) → Option (List Chars)
  | [] => some []
  | (k, v) :: rest =>
    match dumpsKey k, pyDumps v, dumpsKVs rest with
    | some kc, some vc, some b => some ((kc ++ ':' :: ' ' :: vc) :: b)
    | _, _, _ => Option.none

end

/-- Port of `_coerce_python_literals` (extractor.py lines 153-167): sanitize,
rewrite bare `true`/`false`/`null` to Python spellings, evaluate as a
Python literal and re-serialize as strict JSON; on any caught failure the
original text is returned. -/
def coerce_python_literals (s : Chars) : Chars :=
  let sanitized := sanitize_json s
  let converted := replace_unquoted_literals sanitized coerceReps
  match pyLiteralEval converted with
  | .error _ => s
  | .ok obj =>
    match pyDumps obj with
    | Option.none => s
    | some out => out

/-! ## `_try_parse_json` and `extract_simulation_payload`
(extractor.py lines 75-90 and 229-267) -/

/-- Model of `json.loads(candidate.strip())` followed by
`SimulationJSON.parse_obj`, the body of `_try_parse_json`'s loop; both
exception types it can raise are represented as `Except.error`. -/
def loadsValidate (candidate : Chars) : Except String SimulationJSON :=
  match jsonParse (stripWs candidate) with
  | .error e => .error e
  | .ok v => validateSimulationJSON v

/-- Loop of `_try_parse_json` over the transformer list, remembering the
last caught error. -/
def tryParseGo : List (Chars → Chars) → Chars → Option String →
    Option SimulationJSON × Option String
  | [], _, last => (Option.none, last)
  | t :: ts, txt, last =>
    match loadsValidate (t txt) with
    | .ok rec => (some rec, Option.none)
    | .error e => tryParseGo ts txt (some e)

/-- Port of `_try_parse_json`: first transformer that yields a parseable, valid
record wins; otherwise the last error is reported. -/
def try_parse_json (txt : Chars) (transformers : List (Chars → Chars)) :
    Option SimulationJSON × Option String :=
  tryParseGo transformers txt Option.none

/-- Warning emitted when a located JSON block cannot be validated. -/
def warnInvalidBlock : String :=
  "No se pudo validar el bloque JSON generado. Se entrega solo el Markdown."

/-- Warning emitted when no JSON block is detected. -/
def warnNoBlock : String :=
  "No se detectó un bloque JSON válido en la respuesta del modelo."

/-- Warning emitted when neither markdown nor record is produced. -/
def warnEmptyBoth : String :=
  "El modelo no devolvió contenido en Markdown ni proporcionó un JSON estructurado válido."

/-- Warning emitted when the markdown is empty but a record exists. -/
def warnEmptyMarkdown : String :=
  "El modelo no devolvió contenido en Markdown. Se entrega solo el JSON estructurado disponible."

/-- Port of `extract_simulation_payload`: locate, sanitize progressively, validate,
excise the span, and report warnings; `if json_block:` is Python truthiness,
false both for an absent and for an empty block. -/
def extract_simulation_payload (raw : Chars) :
    Chars × Option SimulationJSON × List String :=
  let located := find_json_block raw
  let jsonBlock := located.1
  let span := located.2
  let parsedWarn : Option SimulationJSON × List String :=
    match jsonBlock with
    | some (c :: cs) =>
      let r := try_parse_json (c :: cs)
        [fun value => value, sanitize_json, coerce_python_literals]
      match r with
      | (some rec, _) => (some rec, [])
      | (Option.none, some _) => (Option.none, [warnInvalidBlock])
      | (Option.none, Option.none) => (Option.none, [])
    | _ => (Option.none, [warnNoBlock])
  let simulation_data := parsedWarn.1
  let warnings1 := parsedWarn.2
  let markdown_part : Chars :=
    match span with
    | some (a, b) => raw.take a ++ raw.drop b
    | Option.none => raw
  let cleaned := stripWs markdown_part
  let extra : List String :=
    if cleaned = [] then
      match simulation_data with
      | Option.none => [warnEmptyBoth]
      | some _ => [warnEmptyMarkdown]
    else []
  (cleaned, simulation_data, warnings1 ++ extra)

/-! ## Model of `hashlib.sha256(...).hexdigest()` (fallbacks.py `_hash_context`)

A direct FIPS 180-4 implementation over byte lists, with 32-bit words as
naturals reduced mod `2^32`. -/

/-- UTF-8 bytes of one character. -/
def utf8Char (c : Char) : List Nat :=
  let n := c.toNat
  if n < 0x80 then [n]
  else if n < 0x800 then
    [0xC0 + n / 64, 0x80 + n % 64]
  else if n < 0x10000 then
    [0xE0 + n / 4096, 0x80 + n / 64 % 64, 0x80 + n % 64]
  else
    [0xF0 + n / 262144, 0x80 + n / 4096 % 64, 0x80 + n / 64 % 64, 0x80 + n % 64]

/-- UTF-8 encoding (`str.encode("utf-8")`). -/
def utf8Bytes (s : Chars) : List Nat :=
  s.flatMap utf8Char

/-- Constant `2^32`. -/
def M32 : Nat := 4294967296

/-- Right rotation of a 32-bit word. -/
def rotr (n x : Nat) : Nat :=
  (x / 2 ^ n + x % 2 ^ n * 2 ^ (32 - n)) % M32

/-- Right shift. -/
def shr (n x : Nat) : Nat := x / 2 ^ n

/-- SHA-256 round constants. -/
def shaK : List Nat :=
  [1116352408, 1899447441, 3049323471, 3921009573, 961987163,
   1508970993, 2453635748, 2870763221, 3624381080, 310598401,
   607225278, 1426881987, 1925078388, 2162078206, 2614888103,
   3248222580, 3835390401, 4022224774, 264347078, 604807628,
   770255983, 1249150122, 1555081692, 1996064986, 2554220882,
   2821834349, 2952996808, 3210313671, 3336571891, 3584528711,
   113926993, 338241895, 666307205, 773529912, 1294757372,
   1396182291, 1695183700, 1986661051, 2177026350, 2456956037,
   2730485921, 2820302411, 3259730800, 3345764771, 3516065817,
   3600352804, 4094571909, 275423344, 430227734, 506948616,
   659060556, 883997877, 958139571, 1322822218, 1537002063,
   1747873779, 1955562222, 2024104815, 2227730452, 2361852424,
   2428436474, 2756734187, 3204031479, 3329325298]

/-- SHA-256 initial hash value. -/
def shaH0 : List Nat :=
  [1779033703, 3144134277, 1013904242,
   2773480762, 1359893119, 2600822924,
   528734635, 1541459225]

/-- Big-endian 32-bit words from bytes. -/
def toWords : List Nat → List Nat
  | b1 :: b2 :: b3 :: b4 :: rest =>
    (((b1 * 256 + b2) * 256 + b3) * 256 + b4) :: toWords rest
  | _ => []

/-- 64-byte chunks (fuel-bounded: each step consumes 64 bytes, so fuel at
least the length is adequate). -/
def chunks64 : Nat → List Nat → List (List Nat)
  | _, [] => []
  | 0, _ :: _ => []
  | fuel + 1, x :: t => ((x :: t).take 64) :: chunks64 fuel ((x :: t).drop 64)

/-- Message-schedule extension to 64 words. -/
def msgSchedule (w16 : List Nat) : List Nat :=
  (List.range 48).foldl
    (fun w _ =>
      let i := w.length
      let x15 := w.getD (i - 15) 0
      let x2 := w.getD (i - 2) 0
      let s0 := (rotr 7 x15) ^^^ (rotr 18 x15) ^^^ (shr 3 x15)
      let s1 := (rotr 17 x2) ^^^ (rotr 19 x2) ^^^ (shr 10 x2)
      w ++ [(w.getD (i - 16) 0 + s0 + w.getD (i - 7) 0 + s1) % M32])
    w16

/-- One compression round. -/
def compressRound (w : List Nat) (st : List Nat) (i : Nat) : List Nat :=
  let a := st.getD 0 0
  let b := st.getD 1 0
  let c := st.getD 2 0
  let d := st.getD 3 0
  let e := st.getD 4 0
  let f := st.getD 5 0
  let g := st.getD 6 0
  let hh := st.getD 7 0
  let s1 := (rotr 6 e) ^^^ (rotr 11 e) ^^^ (rotr 25 e)
  let ch := (e &&& f) ^^^ ((0xffffffff ^^^ e) &&& g)
  let temp1 := (hh + s1 + ch + shaK.getD i 0 + w.getD i 0) % M32
  let s0 := (rotr 2 a) ^^^ (rotr 13 a) ^^^ (rotr 22 a)
  let maj := (a &&& b) ^^^ (a &&& c) ^^^ (b &&& c)
  let temp2 := (s0 + maj) % M32
  [(temp1 + temp2) % M32, a, b, c, (d + temp1) % M32, e, f, g]

/-- Compress one 64-byte chunk into the running hash. -/
def shaCompress (h : List Nat) (chunk : List Nat) : List Nat :=
  let w := msgSchedule (toWords chunk)
  let st := (List.range 64).foldl (compressRound w) h
  (h.zip st).map (fun p => (p.1 + p.2) % M32)

/-- SHA-256 digest (32 bytes) of a byte message. -/
def sha256 (msg : List Nat) : List Nat :=
  let len := msg.length
  let lenBits := len * 8
  let padZeros := (119 - len % 64) % 64
  let lenBytes := (List.range 8).map (fun j => lenBits / 256 ^ (7 - j) % 256)
  let padded := msg ++ 0x80 :: List.replicate padZeros 0 ++ lenBytes
  let hh := (chunks64 padded.length padded).foldl shaCompress shaH0
  hh.flatMap (fun wrd => (List.range 4).map (fun j => wrd / 256 ^ (3 - j) % 256))

/-- Lowercase hex digit. -/
def hexDigit (d : Nat) : Char :=
  if d < 10 then Char.ofNat (48 + d) else Char.ofNat (87 + d)

/-- Lowercase hex string of a byte list (`hexdigest`). -/
def sha256Hex (msg : List Nat) : Chars :=
  (sha256 msg).flatMap (fun b => [hexDigit (b / 16), hexDigit (b % 16)])

/-- Port of `_hash_context` (fallbacks.py lines 248-250): first 16 hex characters of
the SHA-256 digest of the UTF-8 encoded context. -/
def hash_context (context : String) : String :=
  String.mk ((sha256Hex (utf8Bytes context.data)).take 16)

/-! ## `SimulateRequest` (schemas.py lines 9-38) and its validation -/

structure SimulateRequest where
  contexto : String
  jurisdiccion : Option String
  materia : String
  nivel : String
  objetivo_didactico : String
  duracion_min : Int
  restricciones : Option (List String)

/-- Python `str.splitlines()` on the `\n`/`\r`/`\r\n` terminators (the
exotic unicode terminators it also recognizes never occur here): every
terminator closes a line, a final unterminated segment counts only when
non-empty. -/
def splitlinesPy : Chars → Chars → List Chars
  | [], acc => if acc.isEmpty then [] else [acc.reverse]
  | '\r' :: '\n' :: rest, acc => acc.reverse :: splitlinesPy rest []
  | '\r' :: rest, acc => acc.reverse :: splitlinesPy rest []
  | '\n' :: rest, acc => acc.reverse :: splitlinesPy rest []
  | c :: rest, acc => splitlinesPy rest (c :: acc)

/-- The non-empty lines of `value.strip().splitlines()` — the quantity
bounded by the `validate_context` validator. -/
def nonEmptyLines (value : String) : List Chars :=
  (splitlinesPy (stripWs value.data) []).filter (fun l => ¬ (stripWs l).isEmpty)

/-- The `@validator("contexto")` method: between 3 and 10 non-empty lines. -/
def validate_context (value : String) : Except String String :=
  if (nonEmptyLines value).length < 3 then
    .error "El contexto debe contener al menos 3 líneas."
  else if (nonEmptyLines value).length > 10 then
    .error "El contexto no debe exceder 10 líneas."
  else .ok value

/-- Pydantic construction of `SimulateRequest` succeeds iff every field
constraint holds: `contexto` has `min_length=10` (checked by the field
constraint before the custom validator runs) and passes `validate_context`;
`materia` and `nivel` lie in their `Literal` sets; `duracion_min` is within
`ge=30, le=480`. -/
def simulateRequestAccepts (r : SimulateRequest) : Bool :=
  decide (10 ≤ r.contexto.length) &&
  (validate_context r.contexto).isOk &&
  tipoValues.contains r.materia &&
  nivelValues.contains r.nivel &&
  decide (30 ≤ r.duracion_min ∧ r.duracion_min ≤ 480)

/-! ## Fallback builders (fallbacks.py) -/

/-- Python `str.split()` with no separator: whitespace-run split, no empty
parts. -/
def splitWsAux : Chars → Chars → List Chars
  | [], acc => if acc.isEmpty then [] else [acc.reverse]
  | c :: rest, acc =>
    if isPyWs c then
      if acc.isEmpty then splitWsAux rest []
      else acc.reverse :: splitWsAux rest []
    else splitWsAux rest (c :: acc)

/-- Join with single spaces (`" ".join(...)`). -/
def joinSpace (parts : List Chars) : Chars :=
  (parts.intersperse [' ']).flatten

/-- Port of `_normalize_context` (fallbacks.py lines 36-38): collapse whitespace
runs to single spaces, truncate to 280 characters, strip. -/
def normalize_context (context : String) : String :=
  String.mk (stripWs ((joinSpace (splitWsAux context.data [])).take 280))

/-- Sentence-terminal characters of the `(?<=[.!?])` lookbehind. -/
def isSentEnd (c : Char) : Bool :=
  c = '.' || c = '!' || c = '?'

/-- Model of `re.split(r"(?<=[.!?])\s+", ·)`: cut at each maximal whitespace run
whose preceding character is `.`, `!` or `?`.  The fuel only bounds the
recursion; every step strictly consumes input. -/
def sentenceSplitAux : Nat → Chars → Option Char → Chars → List Chars
  | _, [], _, acc => [acc.reverse]
  | 0, _ :: _, _, acc => [acc.reverse]
  | fuel + 1, c :: rest, prev, acc =>
    if isPyWs c && (match prev with | some p => isSentEnd p | none => false) then
      acc.reverse ::
        sentenceSplitAux fuel (rest.dropWhile isPyWs)
          (some ((c :: rest.takeWhile isPyWs).getLastD c)) []
    else sentenceSplitAux fuel rest (some c) (c :: acc)

/-- Strip of `"- "` characters from both ends (`fragment.strip("- ")`). -/
def stripDashSpace (s : Chars) : Chars :=
  dropTrail (fun c => c = '-' || c = ' ') (s.dropWhile (fun c => c = '-' || c = ' '))

/-- Port of `_context_points` (fallbacks.py lines 41-50): sentence fragments of the
normalized context, kept when their stripped length is at least 8, stripped
of dashes/spaces, first five. -/
def context_points (context : String) : List String :=
  let snippet := (normalize_context context).data
  if snippet.isEmpty then []
  else
    let fragments := sentenceSplitAux snippet.length snippet Option.none []
    let bullets := (fragments.filter (fun f => 8 ≤ (stripWs f).length)).map
      (fun f => String.mk (stripDashSpace f))
    bullets.take 5

/-- Python `str.lower()` on a whole string (ASCII model). -/
def strLower (s : String) : String := String.mk (s.data.map pyLower)

/-- ASCII uppercase of one character. -/
def pyUpper (c : Char) : Char :=
  if 'a' ≤ c ∧ c ≤ 'z' then Char.ofNat (c.toNat - 32) else c

/-- Python `str.title()` (ASCII model): uppercase each letter that follows
a non-letter, lowercase the rest. -/
def titleAux : Bool → Chars → Chars
  | _, [] => []
  | prevAlpha, c :: s =>
    (if c.isAlpha then (if prevAlpha then pyLower c else pyUpper c) else c) ::
      titleAux c.isAlpha s

/-- Python `str.title()`. -/
def strTitle (s : String) : String := String.mk (titleAux false s.data)

/-- Port of `_build_role_map` (fallbacks.py lines 53-83). -/
def build_role_map (materia : String) : List String :=
  let m := strLower materia
  if m = "penal" then
    ["Juez(a): resalta garantías y controla objeciones sobre cadena de custodia.",
     "Fiscalía: enfatiza dolo o culpa con base en testimonios y peritajes viales.",
     "Defensa: instala duda razonable sobre causalidad, visibilidad y deber objetivo de cuidado.",
     "Perito en tránsito: explica recreación del siniestro y límites de su pericia."]
  else if m = "civil" then
    ["Juez(a): delimita la litis y verifica legitimación en la causa.",
     "Parte demandante: acredita daño y nexo causal con documentos y testigos técnicos.",
     "Parte demandada: cuestiona cuantificación y prueba pericial presentada.",
     "Perito contable o de daños: detalla metodología de tasación propuesta."]
  else if m = "laboral" then
    ["Juez(a) laboral: procura principio de primacía de la realidad y economía procesal.",
     "Trabajador(a): sostiene hechos mediante relato cronológico y documentos contractuales.",
     "Empleador(a): se enfoca en reglamentos internos y cumplimiento de obligaciones.",
     "Inspector(a) de trabajo: aporta criterios técnicos sobre condiciones y riesgos."]
  else
    ["Moderador(a) docente: marca ritmo de la simulación y enlaza con normativa aplicable.",
     "Parte actora: estructura relato coherente con la hipótesis jurídica principal.",
     "Parte opositora: plantea excepciones y objeciones estratégicas.",
     "Experto(a) invitado(a): entrega marco técnico o normativo que refuerza la discusión."]

/-- Port of `_risk_guidance` (fallbacks.py lines 86-114). -/
def risk_guidance (materia : String) : List String :=
  let m := strLower materia
  if m = "penal" then
    ["Cadena de custodia deficiente o discutible en evidencia material o digital.",
     "Confusión entre culpa y dolo al formular los cargos o solicitar la condena.",
     "Testigos presenciales con percepciones limitadas por ángulos o iluminación."]
  else if m = "civil" then
    ["Documentos sin protocolizar que pueden recibir tacha de falsedad.",
     "Falta de peritaje actualizado que respalde cuantificación de perjuicios.",
     "Nexo causal débil entre la conducta imputada y el daño alegado."]
  else if m = "laboral" then
    ["Insuficiente acreditación de subordinación o dependencia económica.",
     "Registros de jornada incompletos que dificultan probar horas extra.",
     "Testigos compañeros con posible sesgo por solidaridad laboral."]
  else
    ["Falta de delimitación clara de la litis y de los hechos controvertidos.",
     "Uso de objeciones improcedentes que entorpecen el flujo didáctico.",
     "Evidencia sin trazabilidad descrita que afecte la credibilidad del ejercicio."]

/-- Port of `_learning_focus` (fallbacks.py lines 117-135). -/
def learning_focus (nivel objetivo : String) : List String :=
  let n := strLower nivel
  let base :=
    ["Conectar todas las intervenciones con el objetivo didáctico: " ++ objetivo ++ ".",
     "Registrar reflexiones posteriores para retroalimentación conjunta."]
  let head :=
    if n = "basico" then
      "Repasar estructura de audiencia y turnos procesales antes de iniciar."
    else if n = "intermedio" then
      "Profundizar en técnicas de objeción y contrainterrogatorio planificado."
    else if n = "avanzado" then
      "Promover improvisación estratégica respetando reglas probatorias."
    else
      "Ajustar el ritmo del ejercicio al bagaje del grupo participante."
  head :: base

/-- Python `str(int)` for the request duration. -/
def intStr (n : Int) : String := String.mk (intRepr n)

/-- Port of `build_fallback_markdown` (fallbacks.py lines 138-230). -/
def build_fallback_markdown (request : SimulateRequest) : String :=
  let contexto := normalize_context request.contexto
  let jurisdiccion := request.jurisdiccion.getD "Jurisdicción genérica"
  let context_points0 := context_points request.contexto
  let contextPointsUsed :=
    if context_points0.isEmpty then
      ["El contexto proporcionado fue muy breve; se recomienda ampliarlo antes de la simulación."]
    else context_points0
  let role_map := build_role_map request.materia
  let risks := risk_guidance request.materia
  let learningFocus := learning_focus request.nivel request.objetivo_didactico
  let lines : List String :=
    ["# Simulación de respaldo LexSim",
     "",
     "_Contenido generado automáticamente debido a un fallo del modelo._",
     "",
     "## Resumen del caso",
     "- **Jurisdicción:** " ++ jurisdiccion,
     "- **Materia:** " ++ request.materia,
     "- **Nivel:** " ++ request.nivel,
     "- **Objetivo didáctico:** " ++ request.objetivo_didactico,
     "- **Duración estimada:** " ++ intStr request.duracion_min ++ " minutos",
     "",
     "### Contexto sintetizado",
     (if contexto = "" then
        "El contexto proporcionado fue muy breve, se recomienda revisarlo."
      else contexto),
     "",
     "#### Hechos clave a resaltar"]
    ++ contextPointsUsed.map (fun point => "- " ++ point)
    ++ ["",
        "## Plan mínimo de audiencia (90 minutos)",
        "1. **Apertura (15 min):** Presentar teoría del caso, delimitar hechos y normas aplicables.",
        "2. **Presentación de pruebas (40 min):** Introducir documentos, testimonios y pericias del bloque de respaldo.",
        "3. **Contrainterrogatorios (20 min):** Enfatizar objeciones frecuentes y control judicial activo.",
        "4. **Alegatos de cierre (10 min):** Vincular evidencias con estándares probatorios.",
        "5. **Retroalimentación docente (5 min):** Resaltar aprendizajes y puntos a reforzar.",
        "",
        "### Roles sugeridos"]
    ++ role_map.map (fun role => "- " ++ role)
    ++ ["",
        "### Riesgos procesales a monitorear"]
    ++ risks.map (fun risk => "- " ++ risk)
    ++ ["",
        "### Líneas argumentales iniciales",
        "- **Parte acusadora/actora:** Relaciona el contexto con normativa y estándares probatorios.",
        "- **Parte defensora/opositora:** Identifica vacíos fácticos o contradicciones derivadas del fallback.",
        "- **Testigos y peritos:** Preparan relatos breves centrados en hechos observables y límites metodológicos.",
        "",
        "### Enfoque pedagógico sugerido"]
    ++ learningFocus.map (fun item => "- " ++ item)
    ++ ["",
        "### Banco de preguntas rápidas",
        "- ¿Qué objeción sería más eficaz frente a cada prueba adversa?",
        "- ¿Cómo justificar la admisión de la evidencia con base en reglas locales?",
        "- ¿Qué variantes podrían explorar los estudiantes para fortalecer la simulación?",
        "",
        "### Próximos pasos recomendados",
        "1. Ajustar o ampliar el contexto antes de reutilizar el fallback.",
        "2. Preparar guiones individuales con base en los roles sugeridos.",
        "3. Registrar conclusiones en acta pedagógica para dar seguimiento.",
        "",
        "---",
        "_Este material de contingencia asegura que la práctica pedagógica pueda continuar aun sin la salida del modelo._"]
  String.intercalate "\n" lines

/-- Minutes after midnight of `_FALLBACK_BASE_TIME` (2035-01-01 09:00). -/
def fallbackBaseMinutes : Nat := 9 * 60

/-- Two-digit rendering of hours/minutes for `strftime("%H:%M")`. -/
def twoDigits (n : Nat) : String :=
  if n < 10 then "0" ++ toString n else toString n

/-- Rendering `strftime("%Y-%m-%d %H:%M")` of the fallback base day at the given
minutes after midnight (the three fixed offsets never cross midnight). -/
def formatMoment (totalMin : Nat) : String :=
  "2035-01-01 " ++ twoDigits (totalMin / 60) ++ ":" ++ twoDigits (totalMin % 60)

/-- Port of `_build_timeline` (fallbacks.py lines 233-245). -/
def build_timeline (baseMinutes : Nat) : List JSONCronologia :=
  [("Inicio de audiencia de acusación", 0),
   ("Presentación de pruebas y objeciones", 30),
   ("Deliberación y conclusiones pedagógicas", 90)].map
    (fun p => ⟨formatMoment (baseMinutes + p.2), p.1⟩)

/-- Port of `build_fallback_simulation_json` (fallbacks.py lines 253-470). -/
def build_fallback_simulation_json (request : SimulateRequest) : SimulationJSON :=
  let jurisdiccion := request.jurisdiccion.getD "Jurisdicción genérica"
  let context_snippet :=
    if normalize_context request.contexto = "" then "Contexto resumido no disponible"
    else normalize_context request.contexto
  let context_hash :=
    hash_context (if context_snippet = "" then request.contexto else context_snippet)
  let meta : JSONMeta :=
    { titulo := "Simulación de contingencia: " ++ strTitle request.materia
      jurisdiccion := jurisdiccion
      materia := request.materia
      nivel := request.nivel
      objetivo_didactico := request.objetivo_didactico
      duracion_minutos := request.duracion_min }
  let personajes : List JSONPersonaje :=
    [{ nombre := "Juez(a) de Control LexSim"
       rol := "juez"
       bio := "Facilitador ficticio que modera el ejercicio cuando el modelo falla."
       objetivos := ["Garantizar continuidad de la práctica", "Modelar decisiones imparciales"]
       sesgos := ["Preferencia por material estructurado"] },
     { nombre := "Fiscal sustituto"
       rol := "fiscal"
       bio := "Representación académica que usa el contexto proporcionado para sustentar cargos."
       objetivos := ["Vincular hechos a la teoría del caso", "Aprovechar el material de respaldo"]
       sesgos := ["Confianza en informes escritos"] },
     { nombre := "Defensor(a) de oficio académico"
       rol := "defensa"
       bio := "Profesional ficticio encargado de impugnar la versión acusatoria usando solo el contexto."
       objetivos := ["Resaltar dudas razonables", "Proteger el debido proceso"]
       sesgos := ["Estrategias prudentes"] },
     { nombre := "Testigo contextual"
       rol := "testigo"
       bio := "Figura creada para narrar los hechos descritos en el contexto proporcionado."
       objetivos := ["Describir hechos relevantes", "Responder a contrainterrogatorios"]
       sesgos := ["Recuerdos influenciados por el estrés"] }]
  let cronologia := build_timeline fallbackBaseMinutes
  let planteamiento : JSONPlanteamiento :=
    { tipo :=
        if request.materia = "penal" ∨ request.materia = "civil" ∨
           request.materia = "laboral" ∨ request.materia = "administrativo" then
          request.materia
        else "otro"
      cargos_o_pretensiones :=
        ["Análisis de responsabilidad según contexto: " ++
          String.mk (context_snippet.data.take 60)]
      estandar_probatorio := "Determinable según normatividad aplicable"
      notas := "Escenario generado automáticamente por ausencia de salida del modelo." }
  let pruebas : JSONPruebas :=
    { documental :=
        [{ id := "DOC-FB-01"
           descripcion := "Resumen documental construido con la información disponible en el contexto."
           origen := "Archivo de respaldo LexSim"
           autenticidad_custodia := "Cadena hipotética verificada para fines académicos"
           posibles_objeciones := ["Pertinencia", "Fundamento insuficiente"] }]
      testimonial :=
        [{ id := "TES-FB-01"
           testigo := "Testigo contextual"
           alcance := "Relata los hechos descritos en el contexto de la solicitud."
           riesgos_credibilidad := ["Memoria dependiente de notas de respaldo"]
           contrapreguntas_sugeridas :=
             ["Precise circunstancias observadas", "Indique fuentes de su conocimiento"] }]
      pericial :=
        [{ id := "PER-FB-01"
           area := "Reconstrucción de hechos"
           metodo := "Análisis de consistencia del contexto"
           limites := "Datos incompletos al provenir de un fallback"
           validez := "Únicamente para práctica académica" }]
      digital_fisica :=
        [{ id := "DIG-FB-01"
           tipo := "digital"
           descripcion := "Archivo simulado que resume el contexto aportado."
           hash := context_hash
           metadatos := [("generado_por", "LexSim fallback"), ("fiabilidad", "moderada")]
           cadena_custodia := "Registro automático interno (uso educativo)" }] }
  let guion : JSONGuion :=
    { instrucciones_iniciales_juez :=
        "Se informa a los participantes que se utiliza material de respaldo debido a un error del modelo."
      apertura :=
        { parte_1 := "La fiscalía describe los hechos apoyándose en el contexto y los documentos de respaldo."
          parte_2 := "La defensa señala posibles fallas en la cadena causal y enfatiza la necesidad de mayor corroboración." }
      interrogatorios :=
        [{ tipo := "directo"
           a_quien := "Testigo contextual"
           preguntas :=
             ["Detalle qué observó según el contexto proporcionado",
              "Explique cómo reaccionaron los involucrados"] },
         { tipo := "contrainterrogatorio"
           a_quien := "Testigo contextual"
           preguntas :=
             ["Confirme las limitaciones de su recuerdo",
              "Señale si recibió instrucciones previas al testimonio"] }]
      objeciones_tipicas :=
        [{ objecion := "leading"
           fundamento := "Se sugiere la respuesta al testigo durante el fallback" },
         { objecion := "hearsay"
           fundamento := "La declaración depende de información secundaria compilada en el fallback" }]
      cierre :=
        { parte_1 := "La fiscalía solicita valorar la coherencia del contexto y la simulación de pruebas."
          parte_2 := "La defensa pide absolver ante la ausencia de corroboración directa del modelo." }
      instrucciones_finales_juez :=
        "Los estudiantes deliberarán considerando las limitaciones de este material de respaldo." }
  let decision : JSONDecision :=
    { criterios :=
        ["Coherencia interna del contexto",
         "Consistencia de testimonios simulados",
         "Respeto por garantías procesales en el ejercicio"]
      matriz_veredicto :=
        [{ criterio := "Análisis del contexto"
           peso := (0.4 : ℚ)
           observaciones := "Evaluar qué elementos faltan por ausencia del modelo" },
         { criterio := "Calidad de los interrogatorios"
           peso := (0.3 : ℚ)
           observaciones := "Considerar si las preguntas cubren todos los hechos" },
         { criterio := "Argumentación final"
           peso := (0.3 : ℚ)
           observaciones := "Valorar la incorporación crítica del material de respaldo" }]
      resultados_alternativos :=
        [{ escenario := "A"
           descripcion := "Se dicta responsabilidad simbólica con base en el material de respaldo" },
         { escenario := "B"
           descripcion := "Se absuelve ante las limitaciones derivadas del uso del fallback" }] }
  let rubrica : List JSONRubrica :=
    [{ criterio := "Dominio del caso de respaldo"
       niveles :=
         [("excelente", "Integra críticamente el fallback con referencias normativas."),
          ("bueno", "Utiliza adecuadamente el fallback identificando riesgos."),
          ("basico", "Depende casi exclusivamente del material entregado sin análisis crítico.")]
       puntaje_max := 10 }]
  let glosario : List JSONGlosario :=
    [{ termino := "Fallback pedagógico"
       definicion := "Material generado automáticamente para continuar la simulación cuando falla el modelo." },
     { termino := "Cadena de custodia simulada"
       definicion := "Registro ficticio que preserva trazabilidad en ejercicios académicos." }]
  { meta := meta
    personajes := personajes
    cronologia := cronologia
    planteamiento_juridico := planteamiento
    pruebas := pruebas
    guion := guion
    decision := decision
    banco_preguntas :=
      ["¿Cómo se adaptan los roles cuando se trabaja con un fallback?",
       "¿Qué riesgos probatorios emergen al no contar con evidencia completa?",
       "¿Qué estrategias de objeción son prioritarias en este escenario?"]
    rubrica := rubrica
    variantes :=
      ["Reformular el caso a materia administrativa usando el mismo fallback.",
       "Solicitar a los estudiantes generar pruebas adicionales para reforzar la simulación."]
    glosario := glosario }

/-- The schema constraints of `SimulationJSON` that are not structural in
the Lean record: every `Literal`-typed field must take a value from its
closed set (everything else — presence and primitive types of required
fields — is enforced by the record type itself). -/
def simulationJSONValid (s : SimulationJSON) : Bool :=
  nivelValues.contains s.meta.nivel &&
  s.personajes.all (fun p => rolValues.contains p.rol) &&
  tipoValues.contains s.planteamiento_juridico.tipo &&
  s.pruebas.digital_fisica.all (fun d => d.tipo = "digital" || d.tipo = "fisica") &&
  s.guion.interrogatorios.all
    (fun i => i.tipo = "directo" || i.tipo = "contrainterrogatorio")

mutual

/-- Contents of the string literals of a candidate text, in order, under the
JSON delimiting rules (double quotes, backslash escapes); an unterminated
final literal contributes what was read.  This formalizes the spec phrase
"content inside a correctly-delimited string literal" for the sanitizer
contract. -/
def strContentsIn : Chars → Chars → List Chars
  | [], acc => [acc.reverse]
  | '"' :: s, acc => acc.reverse :: strContentsOut s
  | '\\' :: d :: s, acc => strContentsIn s (d :: '\\' :: acc)
  | c :: s, acc => strContentsIn s (c :: acc)

/-- Scan outside string literals (see `strContentsIn`). -/
def strContentsOut : Chars → List Chars
  | [] => []
  | '"' :: s => strContentsIn s []
  | _ :: s => strContentsOut s

end

/-- The list of string-literal contents of a candidate. -/
def stringContents (s : Chars) : List Chars := strContentsOut s

/-- Concrete full-schema JSON payload (every required field present, list
fields empty where the schema allows it) used to evaluate the extraction
round-trip at a specific input. -/
def cJsonWitness : String :=
  "\x7b\"meta\": \x7b\"titulo\": \"T\", \"jurisdiccion\": \"J\", \"materia\": \"penal\", \"nivel\": \"intermedio\", \"objetivo_didactico\": \"O\", \"duracion_minutos\": 90\x7d, \"personajes\": [], \"cronologia\": [], \"planteamiento_juridico\": \x7b\"tipo\": \"penal\", \"cargos_o_pretensiones\": [], \"estandar_probatorio\": \"E\", \"notas\": \"N\"\x7d, \"pruebas\": \x7b\"documental\": [], \"testimonial\": [], \"pericial\": [], \"digital_fisica\": []\x7d, \"guion\": \x7b\"instrucciones_iniciales_juez\": \"I\", \"apertura\": \x7b\"parte_1\": \"A\", \"parte_2\": \"B\"\x7d, \"interrogatorios\": [], \"objeciones_tipicas\": [], \"cierre\": \x7b\"parte_1\": \"C\", \"parte_2\": \"D\"\x7d, \"instrucciones_finales_juez\": \"F\"\x7d, \"decision\": \x7b\"criterios\": [], \"matriz_veredicto\": [], \"resultados_alternativos\": []\x7d, \"banco_preguntas\": [], \"rubrica\": [], \"variantes\": [], \"glosario\": []\x7d"

/-- Hash field of the (single) digital/physical evidence item of a record,
empty when the list is empty. -/
def digitalHash (s : SimulationJSON) : String :=
  match s.pruebas.digital_fisica with
  | d :: _ => d.hash
  | [] => ""

theorem skipLine_length_le (s : Chars) : (skipLine s).length ≤ s.length := by
  induction s with
  | nil => simp [skipLine]
  | cons c s ih =>
    simp only [skipLine]
    split
    · exact Nat.le_refl _
    · exact Nat.le_succ_of_le ih

theorem skipBlock_length_le (s : Chars) : (skipBlock s).length ≤ s.length := by
  induction s with
  | nil => simp [skipBlock]
  | cons c s ih =>
    cases s with
    | nil => simp [skipBlock]
    | cons c2 rest =>
      simp only [skipBlock]
      split
      · simp only [List.length_cons]; omega
      · exact Nat.le_succ_of_le ih

theorem tryRep_length_le {reps : List (Chars × Chars)} {prev : Option Char}
    {c : Char} {s : Chars} {rep : Chars} {last : Char} {after : Chars}
    (h : tryRep reps prev (c :: s) = some (rep, last, after)) :
    after.length ≤ s.length := by
  induction reps with
  | nil => simp [tryRep] at h
  | cons p rest ih =>
    obtain ⟨lit, r⟩ := p
    simp only [tryRep] at h
    split at h
    · rename_i hlit
      split at h
      · simp only [Option.some.injEq, Prod.mk.injEq] at h
        obtain ⟨h1, h2, h3⟩ := h
        subst h3
        have hpre : lit <+: c :: s := List.isPrefixOf_iff_prefix.mp
          (by exact (Bool.and_eq_true _ _ ▸ hlit).2)
        have hle : lit.length ≤ (c :: s).length := hpre.length_le
        have hpos : 0 < lit.length := by
          have : ¬ lit.isEmpty = true := by
            have := (Bool.and_eq_true _ _ ▸ hlit).1
            simpa using this
          cases lit with
          | nil => simp at this
          | cons a b => simp
        simp only [List.length_drop, List.length_cons]
        omega
      · exact ih h
    · exact ih h

theorem findCharAux_bounds {c : Char} {s : Chars} {i j : Nat}
    (h : findCharAux c s i = some j) : i ≤ j ∧ j < i + s.length := by
  induction s generalizing i with
  | nil => simp [findCharAux] at h
  | cons x t ih =>
    simp only [findCharAux] at h
    split at h
    · injection h with h1
      subst h1
      simp only [List.length_cons]
      omega
    · obtain ⟨h1, h2⟩ := ih h
      simp only [List.length_cons]
      omega

theorem findCharFrom_bounds {raw : Chars} {c : Char} {p j : Nat}
    (h : findCharFrom raw c p = some j) : p ≤ j ∧ j < raw.length := by
  simp only [findCharFrom, Option.map_eq_some'] at h
  obtain ⟨a, ha, rfl⟩ := h
  obtain ⟨h1, h2⟩ := findCharAux_bounds ha
  have hd : (raw.drop p).length = raw.length - p := List.length_drop p raw
  constructor
  · omega
  · rw [hd] at h2
    by_cases hp : p ≤ raw.length
    · omega
    · rw [List.drop_eq_nil_of_le (by omega)] at ha
      simp [findCharAux] at ha

/-! ## Lemmas about the comment stripper -/

theorem scAux_nil (f : Nat) (e i : Bool) : scAux f e i [] = [] := by
  cases f <;> rfl

theorem scAux_length_le :
    ∀ (f : Nat) (e i : Bool) (s : Chars), (scAux f e i s).length ≤ s.length := by
  intro f
  induction f with
  | zero => intro e i s; cases s <;> simp [scAux]
  | succ g ih =>
    intro e i s
    cases s with
    | nil => simp [scAux]
    | cons c t =>
      have htail : t.tail.length ≤ t.length := by cases t <;> simp
      simp only [scAux]
      split_ifs
      all_goals simp only [List.length_cons]
      · exact Nat.succ_le_succ (ih _ _ _)
      · exact Nat.succ_le_succ (ih _ _ _)
      · exact Nat.succ_le_succ (ih _ _ _)
      · have h1 := ih false i (skipLine t.tail)
        have h2 := skipLine_length_le t.tail
        omega
      · have h1 := ih false i (skipBlock t.tail)
        have h2 := skipBlock_length_le t.tail
        omega
      · exact Nat.succ_le_succ (ih _ _ _)

theorem scAux_fuel_irrelevant :
    ∀ (f1 : Nat) (s : Chars), s.length ≤ f1 → ∀ (f2 : Nat), s.length ≤ f2 →
      ∀ (e i : Bool), scAux f1 e i s = scAux f2 e i s := by
  intro f1
  induction f1 with
  | zero =>
    intro s hs f2 h2 e i
    have hnil : s = [] := List.length_eq_zero.mp (Nat.le_zero.mp hs)
    subst hnil
    rw [scAux_nil, scAux_nil]
  | succ g1 ih =>
    intro s hs f2 h2 e i
    cases s with
    | nil => rw [scAux_nil, scAux_nil]
    | cons c t =>
      cases f2 with
      | zero => simp at h2
      | succ g2 =>
        have ht1 : t.length ≤ g1 := by
          simp only [List.length_cons] at hs; omega
        have ht2 : t.length ≤ g2 := by
          simp only [List.length_cons] at h2; omega
        have htail : t.tail.length ≤ t.length := by cases t <;> simp
        have hline := skipLine_length_le t.tail
        have hblock := skipBlock_length_le t.tail
        simp only [scAux]
        split_ifs
        · exact congrArg (c :: ·) (ih t ht1 g2 ht2 false i)
        · exact congrArg (c :: ·) (ih t ht1 g2 ht2 true i)
        · exact congrArg (c :: ·) (ih t ht1 g2 ht2 false (!i))
        · exact ih (skipLine t.tail) (by omega) g2 (by omega) false i
        · exact ih (skipBlock t.tail) (by omega) g2 (by omega) false i
        · exact congrArg (c :: ·) (ih t ht1 g2 ht2 false i)

theorem scAux_cons_head (f : Nat) (i : Bool) (d : Char) (t2 : Chars)
    (hd : d ≠ '/') : ∃ r, scAux (f + 1) false i (d :: t2) = d :: r := by
  simp only [scAux]
  split_ifs <;>
    first
      | exact ⟨_, rfl⟩
      | (rename_i hcon
         simp only [Bool.and_eq_true, decide_eq_true_eq] at hcon
         exact absurd hcon.1.2 hd)

theorem scAux_idem :
    ∀ (f : Nat) (s : Chars), s.length ≤ f → ∀ (e i : Bool),
      scAux f e i (scAux f e i s) = scAux f e i s := by
  intro f
  induction f with
  | zero =>
    intro s hs e i
    have hnil : s = [] := List.length_eq_zero.mp (Nat.le_zero.mp hs)
    subst hnil
    rw [scAux_nil, scAux_nil]
  | succ g ih =>
    intro s hs e i
    cases s with
    | nil => rw [scAux_nil, scAux_nil]
    | cons c t =>
      have ht : t.length ≤ g := by
        simp only [List.length_cons] at hs; omega
      have htail : t.tail.length ≤ t.length := by cases t <;> simp
      by_cases he : e = true
      · subst he
        rw [show scAux (g + 1) true i (c :: t) = c :: scAux g false i t from by
          simp [scAux]]
        rw [show scAux (g + 1) true i (c :: scAux g false i t) =
              c :: scAux g false i (scAux g false i t) from by simp [scAux]]
        exact congrArg (c :: ·) (ih t ht false i)
      · have he2 : e = false := by cases e <;> simp_all
        subst he2
        by_cases hbs : c = '\\'
        · subst hbs
          rw [show scAux (g + 1) false i ('\\' :: t) = '\\' :: scAux g true i t
              from by simp [scAux]]
          rw [show scAux (g + 1) false i ('\\' :: scAux g true i t) =
                '\\' :: scAux g true i (scAux g true i t) from by simp [scAux]]
          exact congrArg _ (ih t ht true i)
        · by_cases hq : c = '"'
          · subst hq
            rw [show scAux (g + 1) false i ('"' :: t) = '"' :: scAux g false (!i) t
                from by simp [scAux]]
            rw [show scAux (g + 1) false i ('"' :: scAux g false (!i) t) =
                  '"' :: scAux g false (!i) (scAux g false (!i) t) from by
                simp [scAux]]
            exact congrArg _ (ih t ht false (!i))
          · by_cases hcom : i = false ∧ c = '/' ∧
                (t.head? = some '/' ∨ t.head? = some '*')
            · obtain ⟨hi, hc, hh⟩ := hcom
              subst hi; subst hc
              rcases hh with hh | hh
              · have hred : scAux (g + 1) false false ('/' :: t) =
                    scAux g false false (skipLine t.tail) := by
                  simp [scAux, hh]
                rw [hred]
                have hlen : (scAux g false false (skipLine t.tail)).length ≤ g := by
                  have h1 := scAux_length_le g false false (skipLine t.tail)
                  have h2 := skipLine_length_le t.tail
                  omega
                rw [scAux_fuel_irrelevant (g + 1) _ (by omega) g hlen false false]
                exact ih (skipLine t.tail)
                  (by have := skipLine_length_le t.tail; omega) false false
              · have hred : scAux (g + 1) false false ('/' :: t) =
                    scAux g false false (skipBlock t.tail) := by
                  have hne : ¬ (t.head? = some '/') := by
                    rw [hh]; intro hcon; cases hcon
                  simp [scAux, hh, hne]
                rw [hred]
                have hlen : (scAux g false false (skipBlock t.tail)).length ≤ g := by
                  have h1 := scAux_length_le g false false (skipBlock t.tail)
                  have h2 := skipBlock_length_le t.tail
                  omega
                rw [scAux_fuel_irrelevant (g + 1) _ (by omega) g hlen false false]
                exact ih (skipBlock t.tail)
                  (by have := skipBlock_length_le t.tail; omega) false false
            · have hnc : ¬ (!i && c = '/' && t.head? = some '/') = true := by
                intro hcon
                simp only [Bool.and_eq_true, decide_eq_true_eq] at hcon
                exact hcom ⟨by cases i <;> simp_all, hcon.1.2, Or.inl hcon.2⟩
              have hnc2 : ¬ (!i && c = '/' && t.head? = some '*') = true := by
                intro hcon
                simp only [Bool.and_eq_true, decide_eq_true_eq] at hcon
                exact hcom ⟨by cases i <;> simp_all, hcon.1.2, Or.inr hcon.2⟩
              have hred : scAux (g + 1) false i (c :: t) =
                  c :: scAux g false i t := by
                simp only [scAux, if_neg hbs, if_neg hq, if_neg hnc, if_neg hnc2]
                simp
              rw [hred]
              have hXnc : ¬ (!i && c = '/' &&
                  (scAux g false i t).head? = some '/') = true := by
                intro hcon
                simp only [Bool.and_eq_true, decide_eq_true_eq] at hcon
                obtain ⟨⟨hi, hc⟩, hX⟩ := hcon
                cases t with
                | nil => rw [scAux_nil] at hX; cases hX
                | cons d t2 =>
                  have hg : 1 ≤ g := by
                    simp only [List.length_cons] at ht; omega
                  obtain ⟨g2, rfl⟩ : ∃ g2, g = g2 + 1 :=
                    ⟨g - 1, by omega⟩
                  have hdne : d ≠ '/' := by
                    intro hcond
                    exact hcom ⟨by cases i <;> simp_all, hc,
                      Or.inl (by rw [hcond]; rfl)⟩
                  obtain ⟨r, hr⟩ := scAux_cons_head g2 i d t2 hdne
                  rw [hr] at hX
                  simp only [List.head?_cons, Option.some.injEq] at hX
                  exact hdne hX
              have hXnc2 : ¬ (!i && c = '/' &&
                  (scAux g false i t).head? = some '*') = true := by
                intro hcon
                simp only [Bool.and_eq_true, decide_eq_true_eq] at hcon
                obtain ⟨⟨hi, hc⟩, hX⟩ := hcon
                cases t with
                | nil => rw [scAux_nil] at hX; cases hX
                | cons d t2 =>
                  have hg : 1 ≤ g := by
                    simp only [List.length_cons] at ht; omega
                  obtain ⟨g2, rfl⟩ : ∃ g2, g = g2 + 1 :=
                    ⟨g - 1, by omega⟩
                  have hdne : d ≠ '/' := by
                    intro hcond
                    exact hcom ⟨by cases i <;> simp_all, hc,
                      Or.inl (by rw [hcond]; rfl)⟩
                  obtain ⟨r, hr⟩ := scAux_cons_head g2 i d t2 hdne
                  rw [hr] at hX
                  simp only [List.head?_cons, Option.some.injEq] at hX
                  have hds : d = '*' := hX
                  exact hcom ⟨by cases i <;> simp_all, hc,
                    Or.inr (by rw [hds]; rfl)⟩
              have hred2 : scAux (g + 1) false i (c :: scAux g false i t) =
                  c :: scAux g false i (scAux g false i t) := by
                simp only [scAux, if_neg hbs, if_neg hq, if_neg hXnc, if_neg hXnc2]
                simp
              rw [hred2]
              exact congrArg _ (ih t ht false i)

theorem scAux_no_slash :
    ∀ (f : Nat) (s : Chars), s.length ≤ f → ∀ (e i : Bool), '/' ∉ s →
      scAux f e i s = s := by
  intro f
  induction f with
  | zero =>
    intro s hs e i h
    have hnil : s = [] := List.length_eq_zero.mp (Nat.le_zero.mp hs)
    subst hnil
    exact scAux_nil 0 e i
  | succ g ih =>
    intro s hs e i h
    cases s with
    | nil => exact scAux_nil _ e i
    | cons c t =>
      have hc : c ≠ '/' := by
        intro hcc
        exact h (by rw [hcc]; exact List.mem_cons_self _ _)
      have ht : '/' ∉ t := fun hm => h (List.mem_cons_of_mem _ hm)
      have htl : t.length ≤ g := by
        simp only [List.length_cons] at hs; omega
      simp only [scAux]
      split_ifs <;>
        first
          | (rename_i hcon
             simp only [Bool.and_eq_true, decide_eq_true_eq] at hcon
             exact absurd hcon.1.2 hc)
          | exact congrArg (c :: ·) (ih t htl _ _ ht)

/-- C4 (amended): the comment-stripping stage of `_sanitize_json` is
idempotent; the full `_sanitize_json` is not, because its trailing-comma
removal can expose a new trailing comma (see the counterexample
`sanitize_json_not_idempotent_cex`). -/
theorem strip_json_comments_idem (s : Chars) :
    strip_json_comments (strip_json_comments s) = strip_json_comments s := by
  unfold strip_json_comments
  have hle := scAux_length_le s.length false false s
  calc scAux (scAux s.length false false s).length false false
        (scAux s.length false false s)
      = scAux s.length false false (scAux s.length false false s) :=
        scAux_fuel_irrelevant _ _ (le_refl _) s.length hle false false
    _ = scAux s.length false false s := scAux_idem s.length s (le_refl _) false false


/-- C4 counterexample: applying `_sanitize_json` twice to `",,]"` removes a
second comma that the first pass exposed, so the sanitizer stage is not
idempotent as claimed. -/
theorem sanitize_json_not_idempotent_cex :
    sanitize_json ",,]".data = ",]".data ∧
    sanitize_json (sanitize_json ",,]".data) = "]".data ∧
    sanitize_json (sanitize_json ",,]".data) ≠ sanitize_json ",,]".data := by
  refine ⟨by decide, by decide, by decide⟩

/-- C3 counterexample: on the schema-like candidate `{"a": ",]"}` the
trailing-comma regex of `_sanitize_json` deletes the comma inside the
correctly delimited string literal `",]"`, changing its content to `"]"`. -/
theorem sanitize_json_alters_string_literal_cex :
    stringContents "\x7b\"a\": \",]\"\x7d".data = ["a".data, ",]".data] ∧
    sanitize_json "\x7b\"a\": \",]\"\x7d".data = "\x7b\"a\": \"]\"\x7d".data ∧
    stringContents (sanitize_json "\x7b\"a\": \",]\"\x7d".data) =
      ["a".data, "]".data] := by
  refine ⟨by decide, by decide, by decide⟩

/-- C3 (amended): the comment-stripping transform never alters a candidate
that contains no `/` at all (in particular it alters no string-literal
content there); the trailing-comma transform, by contrast, applies inside
string literals too (see `sanitize_json_alters_string_literal_cex`). -/
theorem strip_json_comments_slash_free (s : Chars) (h : '/' ∉ s) :
    strip_json_comments s = s :=
  scAux_no_slash s.length s (le_refl _) false false h

/-- C3 witness: the amended statement evaluated at the counterexample
candidate, which contains no slash. -/
theorem strip_json_comments_slash_free_witness :
    strip_json_comments "\x7b\"a\": \",]\"\x7d".data = "\x7b\"a\": \",]\"\x7d".data :=
  strip_json_comments_slash_free _ (by decide)

/-- Validation outcome of the `contexto` line-count validator. -/
theorem validate_context_isOk (v : String) :
    (validate_context v).isOk = true ↔
      3 ≤ (nonEmptyLines v).length ∧ (nonEmptyLines v).length ≤ 10 := by
  unfold validate_context
  split_ifs with h1 h2
  · simp only [Except.isOk, Except.toBool]
    constructor
    · intro h; cases h
    · intro h; omega
  · simp only [Except.isOk, Except.toBool]
    constructor
    · intro h; cases h
    · intro h; omega
  · simp only [Except.isOk, Except.toBool]
    constructor
    · intro h; omega
    · intro h; trivial

/-- C9 counterexample: a context of exactly three non-empty lines whose
total length is below the `min_length=10` field constraint is rejected even
though every other field is valid, refuting "succeeds exactly when the
context has 3 to 10 non-empty lines". -/
theorem simulate_request_short_context_cex :
    (nonEmptyLines "a\nb\nc").length = 3 ∧
    tipoValues.contains "penal" = true ∧
    nivelValues.contains "intermedio" = true ∧
    simulateRequestAccepts
      ⟨"a\nb\nc", Option.none, "penal", "intermedio",
       "practicar objeciones y contrainterrogatorio", 90, Option.none⟩ = false := by
  refine ⟨by decide, by decide, by decide, by decide⟩

/-- C9 (amended): with every other field valid, construction of a
`SimulateRequest` succeeds exactly when the context is at least 10
characters long (the `min_length` field constraint) and has between 3 and
10 non-empty lines (the custom validator). -/
theorem simulate_request_accepts_iff (r : SimulateRequest)
    (hm : tipoValues.contains r.materia = true)
    (hn : nivelValues.contains r.nivel = true)
    (hd : 30 ≤ r.duracion_min ∧ r.duracion_min ≤ 480) :
    simulateRequestAccepts r = true ↔
      (10 ≤ r.contexto.length ∧
       3 ≤ (nonEmptyLines r.contexto).length ∧
       (nonEmptyLines r.contexto).length ≤ 10) := by
  have hds : decide (30 ≤ r.duracion_min ∧ r.duracion_min ≤ 480) = true := by
    simp [hd.1, hd.2]
  unfold simulateRequestAccepts
  rw [hm, hn, hds]
  simp only [Bool.and_true, Bool.and_eq_true, decide_eq_true_eq,
    validate_context_isOk]

/-- C9 witness: a ten-plus-character context of three non-empty lines is
accepted. -/
theorem simulate_request_accepts_iff_witness :
    simulateRequestAccepts
      ⟨"Linea uno del caso.\nLinea dos del caso.\nLinea tres del caso.",
       Option.none, "penal", "intermedio", "objetivo", 90, Option.none⟩ = true :=
  (simulate_request_accepts_iff _ (by decide) (by decide)
    (by constructor <;> decide)).mpr (by decide)

/-- Loop invariant of `_try_parse_json`: once an error has been recorded, a
run that produces no record reports some last error. -/
theorem tryParseGo_none_err :
    ∀ (ts : List (Chars → Chars)) (txt : Chars) (e0 : String),
      (tryParseGo ts txt (some e0)).1 = Option.none →
      ∃ e, (tryParseGo ts txt (some e0)).2 = some e := by
  intro ts
  induction ts with
  | nil => intro txt e0 h; exact ⟨e0, rfl⟩
  | cons t ts ih =>
    intro txt e0 h
    cases hlv : loadsValidate (t txt) with
    | ok rec =>
      simp only [tryParseGo, hlv] at h
      simp at h
    | error e =>
      simp only [tryParseGo, hlv] at h ⊢
      exact ih txt e h

/-- When `_try_parse_json` (with at least one transformer) yields no record,
it reports a last error. -/
theorem try_parse_json_none_err (txt : Chars) (t1 : Chars → Chars)
    (ts : List (Chars → Chars))
    (h : (try_parse_json txt (t1 :: ts)).1 = Option.none) :
    ∃ e, (try_parse_json txt (t1 :: ts)).2 = some e := by
  unfold try_parse_json at h ⊢
  cases hlv : loadsValidate (t1 txt) with
  | ok rec =>
    simp only [tryParseGo, hlv] at h
    simp at h
  | error e =>
    simp only [tryParseGo, hlv] at h ⊢
    exact tryParseGo_none_err ts txt e h

/-- C2: `extract_simulation_payload` is a total function of its input in
this embedding (every exception the callees can raise is caught where the
source catches it), and malformed input degrades to warnings: whenever the
structured record is absent, the warnings list is non-empty — no error
reaches the caller. -/
theorem extract_simulation_payload_degrades_to_warnings (raw : Chars)
    (h : (extract_simulation_payload raw).2.1 = Option.none) :
    (extract_simulation_payload raw).2.2 ≠ [] := by
  rcases hfb : find_json_block raw with ⟨jb, sp⟩
  cases jb with
  | none =>
    simp only [extract_simulation_payload, hfb] at h ⊢
    simp
  | some l =>
    cases l with
    | nil =>
      simp only [extract_simulation_payload, hfb] at h ⊢
      simp
    | cons c cs =>
      rcases htp : try_parse_json (c :: cs)
          [fun value => value, sanitize_json, coerce_python_literals]
        with ⟨orec, oerr⟩
      cases orec with
      | some rec =>
        simp only [extract_simulation_payload, hfb, htp] at h
        simp at h
      | none =>
        cases oerr with
        | some e =>
          simp only [extract_simulation_payload, hfb, htp]
          simp
        | none =>
          obtain ⟨e, he⟩ := try_parse_json_none_err (c :: cs) _ _
            (by rw [htp])
          rw [htp] at he
          simp at he

/-- C2 witness: prose with no JSON anywhere yields an absent record and a
non-empty warnings list. -/
theorem extract_simulation_payload_degrades_witness :
    (extract_simulation_payload "hola".data).2.1 = Option.none ∧
    (extract_simulation_payload "hola".data).2.2 ≠ [] :=
  ⟨rfl, extract_simulation_payload_degrades_to_warnings _ rfl⟩

/-- Soundness of the brace-scan loop: a returned candidate parses as strict
JSON and is the brace-delimited slice of the raw text at the returned span. -/
theorem braceScanLoop_sound (raw : Chars) :
    ∀ (fuel pos : Nat) (c : Chars) (sp : Nat × Nat),
      braceScanLoop raw fuel pos = (some c, some sp) →
      (jsonParse c).isOk = true ∧ c = (raw.take sp.2).drop sp.1 := by
  intro fuel
  induction fuel with
  | zero => intro pos c sp h; simp [braceScanLoop] at h
  | succ g ih =>
    intro pos c sp h
    cases hf : findCharFrom raw '\x7b' pos with
    | none => simp only [braceScanLoop, hf] at h; simp at h
    | some st =>
      cases hm : find_matching_brace raw st with
      | none => simp only [braceScanLoop, hf, hm] at h; simp at h
      | some en =>
        simp only [braceScanLoop, hf, hm] at h
        by_cases hok : (jsonParse ((raw.take (en + 1)).drop st)).isOk = true
        · rw [if_pos hok] at h
          simp only [Prod.mk.injEq, Option.some.injEq] at h
          obtain ⟨hc, hsp⟩ := h
          subst hc
          subst hsp
          exact ⟨hok, rfl⟩
        · rw [if_neg hok] at h
          exact ih (st + 1) c sp h

/-- C5 (amended): the brace scan tries `{` occurrences left to right and
returns the first brace-delimited substring that strict-parses, but it stops
and reports no match as soon as the brace matcher finds no close for the
current occurrence — later occurrences are then not tried (see the
counterexample `find_json_block_misses_later_object_cex`). -/
theorem brace_scan_first_parse_or_break (raw : Chars) (fuel pos : Nat) :
    (∀ st, findCharFrom raw '\x7b' pos = some st →
        find_matching_brace raw st = Option.none →
        braceScanLoop raw fuel pos = (Option.none, Option.none)) ∧
    (∀ c sp, braceScanLoop raw fuel pos = (some c, some sp) →
        (jsonParse c).isOk = true ∧ c = (raw.take sp.2).drop sp.1) := by
  constructor
  · intro st h1 h2
    cases fuel with
    | zero => rfl
    | succ g => simp only [braceScanLoop, h1, h2]
  · intro c sp h
    exact braceScanLoop_sound raw fuel pos c sp h

/-- C5 witness: on `"{ {"a": 1}"` the first `{` has no matching brace, so
the loop reports no match at once. -/
theorem brace_scan_first_parse_or_break_witness :
    braceScanLoop "\x7b \x7b\"a\": 1\x7d".data 11 0 =
      (Option.none, Option.none) :=
  (brace_scan_first_parse_or_break "\x7b \x7b\"a\": 1\x7d".data 11 0).1 0
    (by decide) (by decide)

/-- C5 counterexample: in `"{ {"a": 1}"` the locator returns no match even
though the `{` at index 2 is brace-balanced (closing at index 9) and its
substring `{"a": 1}` parses as valid JSON — the claim that every occurrence
is tried is false. -/
theorem find_json_block_misses_later_object_cex :
    find_json_block "\x7b \x7b\"a\": 1\x7d".data = (Option.none, Option.none) ∧
    find_matching_brace "\x7b \x7b\"a\": 1\x7d".data 2 = some 9 ∧
    (jsonParse (("\x7b \x7b\"a\": 1\x7d".data.take 10).drop 2)).isOk = true := by
  refine ⟨by decide, by decide, by decide⟩

/-- C6: the fallback builders are deterministic — equal requests give
byte-identical document and record (they are pure functions of the request,
with no randomness and no external calls in the embedding) — and the
digital-evidence item's hash identifier is the first 16 hex characters of
the SHA-256 digest of the normalized context text (whenever the normalized
context is non-empty, which every valid request guarantees). -/
theorem fallback_deterministic_and_hash_derived (r1 r2 : SimulateRequest)
    (h : r1 = r2) (hc : normalize_context r1.contexto ≠ "") :
    build_fallback_markdown r1 = build_fallback_markdown r2 ∧
    build_fallback_simulation_json r1 = build_fallback_simulation_json r2 ∧
    digitalHash (build_fallback_simulation_json r1) =
      String.mk
        ((sha256Hex (utf8Bytes (normalize_context r1.contexto).data)).take 16) := by
  subst h
  refine ⟨rfl, rfl, ?_⟩
  simp only [build_fallback_simulation_json, digitalHash, hash_context,
    if_neg hc]

/-- C6 witness: the determinism-and-hash statement at a concrete request. -/
theorem fallback_deterministic_and_hash_derived_witness :
    build_fallback_markdown
        ⟨"Linea uno del caso.\nLinea dos del caso.\nLinea tres del caso.",
         Option.none, "penal", "intermedio", "objetivo", 90, Option.none⟩ =
      build_fallback_markdown
        ⟨"Linea uno del caso.\nLinea dos del caso.\nLinea tres del caso.",
         Option.none, "penal", "intermedio", "objetivo", 90, Option.none⟩ ∧
    build_fallback_simulation_json
        ⟨"Linea uno del caso.\nLinea dos del caso.\nLinea tres del caso.",
         Option.none, "penal", "intermedio", "objetivo", 90, Option.none⟩ =
      build_fallback_simulation_json
        ⟨"Linea uno del caso.\nLinea dos del caso.\nLinea tres del caso.",
         Option.none, "penal", "intermedio", "objetivo", 90, Option.none⟩ ∧
    digitalHash (build_fallback_simulation_json
        ⟨"Linea uno del caso.\nLinea dos del caso.\nLinea tres del caso.",
         Option.none, "penal", "intermedio", "objetivo", 90, Option.none⟩) =
      String.mk ((sha256Hex (utf8Bytes (normalize_context
        "Linea uno del caso.\nLinea dos del caso.\nLinea tres del caso.").data)).take
        16) :=
  fallback_deterministic_and_hash_derived _ _ rfl (by decide)

/-- C7: for every request whose enum fields are valid, the fallback record
satisfies every `Literal` constraint of the schema (all required fields are
populated by construction of the record type). -/
theorem fallback_record_schema_valid (r : SimulateRequest)
    (hm : tipoValues.contains r.materia = true)
    (hn : nivelValues.contains r.nivel = true) :
    simulationJSONValid (build_fallback_simulation_json r) = true := by
  have hm2 : r.materia = "penal" ∨ r.materia = "civil" ∨ r.materia = "laboral" ∨
      r.materia = "administrativo" ∨ r.materia = "otro" := by
    simpa [tipoValues] using hm
  have hn2 : r.nivel = "basico" ∨ r.nivel = "intermedio" ∨
      r.nivel = "avanzado" := by
    simpa [nivelValues] using hn
  obtain ⟨c, j, m, n, o, d, re⟩ := r
  simp only at hm2 hn2
  rcases hm2 with rfl | rfl | rfl | rfl | rfl <;>
    rcases hn2 with rfl | rfl | rfl <;> rfl

/-- C7 witness: the fallback record of a concrete valid request passes the
schema's enum constraints. -/
theorem fallback_record_schema_valid_witness :
    simulationJSONValid (build_fallback_simulation_json
      ⟨"Linea uno del caso.\nLinea dos del caso.\nLinea tres del caso.",
       Option.none, "laboral", "avanzado", "objetivo", 120, Option.none⟩) = true :=
  fallback_record_schema_valid _ (by decide) (by decide)

/-- Snippet used by `build_fallback_simulation_json` is never empty (the
empty normalized context is replaced by a fixed placeholder). -/
theorem snippet_ne_empty (c : String) :
    (if normalize_context c = "" then "Contexto resumido no disponible"
     else normalize_context c) ≠ "" := by
  split_ifs with h
  · decide
  · exact h

/-- C10: every use of the request context in the fallback builders factors
through `_normalize_context` (whitespace-collapse plus 280-character
truncation), so two requests that agree on all other fields and whose
contexts normalize identically get the same key-fact bullets, the same
document (including its context summary), the same record, and the same
hash-derived evidence identifier. -/
theorem fallback_depends_only_on_normalized_context
    (r1 r2 : SimulateRequest)
    (hj : r1.jurisdiccion = r2.jurisdiccion) (hm : r1.materia = r2.materia)
    (hn : r1.nivel = r2.nivel) (ho : r1.objetivo_didactico = r2.objetivo_didactico)
    (hd : r1.duracion_min = r2.duracion_min)
    (hctx : normalize_context r1.contexto = normalize_context r2.contexto) :
    context_points r1.contexto = context_points r2.contexto ∧
    build_fallback_markdown r1 = build_fallback_markdown r2 ∧
    build_fallback_simulation_json r1 = build_fallback_simulation_json r2 ∧
    digitalHash (build_fallback_simulation_json r1) =
      digitalHash (build_fallback_simulation_json r2) := by
  have hcp : context_points r1.contexto = context_points r2.contexto := by
    unfold context_points
    rw [hctx]
  have hjson : build_fallback_simulation_json r1 =
      build_fallback_simulation_json r2 := by
    simp only [build_fallback_simulation_json]
    rw [if_neg (snippet_ne_empty r1.contexto),
        if_neg (snippet_ne_empty r2.contexto), hctx, hj, hm, hn, ho, hd]
  refine ⟨hcp, ?_, hjson, by rw [hjson]⟩
  unfold build_fallback_markdown
  rw [hctx, hcp, hj, hm, hn, ho, hd]

/-- C10 witness: two textually different contexts with the same normal form
(an extra whitespace run) produce identical fallback artifacts. -/
theorem fallback_depends_only_on_normalized_context_witness :
    ("Linea uno del caso.\nLinea dos del caso.\nLinea tres del caso." : String) ≠
      "Linea uno del caso. Linea  dos del caso.  Linea tres del caso." ∧
    context_points
        "Linea uno del caso.\nLinea dos del caso.\nLinea tres del caso." =
      context_points
        "Linea uno del caso. Linea  dos del caso.  Linea tres del caso." ∧
    build_fallback_markdown
        ⟨"Linea uno del caso.\nLinea dos del caso.\nLinea tres del caso.",
         Option.none, "penal", "intermedio", "objetivo", 90, Option.none⟩ =
      build_fallback_markdown
        ⟨"Linea uno del caso. Linea  dos del caso.  Linea tres del caso.",
         Option.none, "penal", "intermedio", "objetivo", 90, Option.none⟩ :=
  ⟨by decide,
   (fallback_depends_only_on_normalized_context
     ⟨"Linea uno del caso.\nLinea dos del caso.\nLinea tres del caso.",
      Option.none, "penal", "intermedio", "objetivo", 90, Option.none⟩
     ⟨"Linea uno del caso. Linea  dos del caso.  Linea tres del caso.",
      Option.none, "penal", "intermedio", "objetivo", 90, Option.none⟩
     rfl rfl rfl rfl rfl (by decide)).1,
   (fallback_depends_only_on_normalized_context
     ⟨"Linea uno del caso.\nLinea dos del caso.\nLinea tres del caso.",
      Option.none, "penal", "intermedio", "objetivo", 90, Option.none⟩
     ⟨"Linea uno del caso. Linea  dos del caso.  Linea tres del caso.",
      Option.none, "penal", "intermedio", "objetivo", 90, Option.none⟩
     rfl rfl rfl rfl rfl (by decide)).2.1⟩

/-- Opening-fence detection forces a backtick head. -/
theorem isOpenFenceAt_head {x : Char} {l : Chars}
    (h : isOpenFenceAt (x :: l) = true) : x = '`' := by
  rcases l with _ | ⟨b, _ | ⟨c2, _ | ⟨d, _ | ⟨e, _ | ⟨f, _ | ⟨g, t⟩⟩⟩⟩⟩⟩ <;>
    simp [isOpenFenceAt] at h
  exact h.1.1.1.1.1.1

/-- Closing-fence detection forces a backtick head. -/
theorem isTripleAt_head {x : Char} {l : Chars}
    (h : isTripleAt (x :: l) = true) : x = '`' := by
  rcases l with _ | ⟨b, _ | ⟨c2, t⟩⟩ <;> simp [isTripleAt] at h
  exact h.1.1

/-- The opening-fence search skips over a backtick-free prefix. -/
theorem fenceOpenAux_append (p r : Chars) (hp : '`' ∉ p) :
    ∀ i, fenceOpenAux (p ++ r) i = fenceOpenAux r (i + p.length) := by
  induction p with
  | nil => intro i; simp
  | cons x p ih =>
    intro i
    have hx : x ≠ '`' := by
      intro hcc; exact hp (by rw [hcc]; exact List.mem_cons_self _ _)
    have hp2 : '`' ∉ p := fun hm => hp (List.mem_cons_of_mem _ hm)
    have hfence : ¬ isOpenFenceAt (x :: (p ++ r)) = true := by
      intro hof; exact hx (isOpenFenceAt_head hof)
    rw [show (x :: p) ++ r = x :: (p ++ r) from rfl, fenceOpenAux,
      if_neg hfence, ih hp2 (i + 1)]
    congr 1
    simp only [List.length_cons]
    omega

/-- The closing-fence search skips over a backtick-free prefix. -/
theorem tripleAux_append (p r : Chars) (hp : '`' ∉ p) :
    ∀ i, tripleAux (p ++ r) i = tripleAux r (i + p.length) := by
  induction p with
  | nil => intro i; simp
  | cons x p ih =>
    intro i
    have hx : x ≠ '`' := by
      intro hcc; exact hp (by rw [hcc]; exact List.mem_cons_self _ _)
    have hp2 : '`' ∉ p := fun hm => hp (List.mem_cons_of_mem _ hm)
    have hfence : ¬ isTripleAt (x :: (p ++ r)) = true := by
      intro hof; exact hx (isTripleAt_head hof)
    rw [show (x :: p) ++ r = x :: (p ++ r) from rfl, tripleAux,
      if_neg hfence, ih hp2 (i + 1)]
    congr 1
    simp only [List.length_cons]
    omega

/-- The opening-fence search fires at an actual `` ```json `` marker. -/
theorem fenceOpenAux_at (r : Chars) (i : Nat) :
    fenceOpenAux ("```json".data ++ r) i = some i := by
  show fenceOpenAux ('`' :: '`' :: '`' :: 'j' :: 's' :: 'o' :: 'n' :: r) i = some i
  rw [fenceOpenAux]
  rw [if_pos]
  rfl

/-- The closing-fence search fires at an actual `` ``` `` marker. -/
theorem tripleAux_at (r : Chars) (i : Nat) :
    tripleAux ("```".data ++ r) i = some i := by
  show tripleAux ('`' :: '`' :: '`' :: r) i = some i
  rw [tripleAux]
  rw [if_pos]
  rfl

/-- Decomposition of `JSON_BLOCK_PATTERN` search on text whose prose and
payload are backtick-free: the match starts at the `` ```json `` marker,
ends after the next `` ``` ``, and captures the in-between text stripped of
whitespace. -/
theorem findFencedBlock_decompose (p mid rest : Chars)
    (hp : '`' ∉ p) (hmid : '`' ∉ mid) :
    findFencedBlock (p ++ "```json".data ++ mid ++ "```".data ++ rest) =
      some (stripWs mid, p.length, p.length + 7 + mid.length + 3) := by
  have hassoc : p ++ "```json".data ++ mid ++ "```".data ++ rest =
      (p ++ "```json".data) ++ (mid ++ ("```".data ++ rest)) := by
    simp [List.append_assoc]
  have hopen : fenceOpenAux
      (p ++ "```json".data ++ mid ++ "```".data ++ rest) 0 = some p.length := by
    have h2 : p ++ "```json".data ++ mid ++ "```".data ++ rest =
        p ++ ("```json".data ++ (mid ++ ("```".data ++ rest))) := by
      simp [List.append_assoc]
    rw [h2, fenceOpenAux_append p _ hp 0, fenceOpenAux_at]
    simp
  have hdrop : (p ++ "```json".data ++ mid ++ "```".data ++ rest).drop
      (p.length + 7) = mid ++ ("```".data ++ rest) := by
    rw [hassoc]
    have hlen : (p ++ "```json".data).length = p.length + 7 := by
      simp
    rw [← hlen, List.drop_left]
  have hclose : tripleAux (mid ++ ("```".data ++ rest)) 0 = some mid.length := by
    rw [tripleAux_append mid _ hmid 0, tripleAux_at]
    simp
  have htake : (mid ++ ("```".data ++ rest)).take mid.length = mid :=
    List.take_left mid _
  unfold findFencedBlock
  rw [hopen]
  simp only [hdrop, hclose, htake]

/-- C8 (amended): the locator recognizes a fenced block whenever the text
contains three backticks, the token `json`, then any (possibly empty)
stretch of text up to the next three backticks: the `\s*` of
`JSON_BLOCK_PATTERN` matches the empty string, so no newline after the
token is required (the original claim's "a fence missing the newline is not
recognized" is refuted by `fence_without_newline_recognized_cex`); the
captured payload is the in-between text with surrounding whitespace
stripped. -/
theorem fenced_block_recognized (p c rest : Chars)
    (hp : '`' ∉ p) (hc : '`' ∉ c) :
    findFencedBlock (p ++ "```json".data ++ c ++ "```".data ++ rest) =
      some (stripWs c, p.length, p.length + 7 + c.length + 3) :=
  findFencedBlock_decompose p c rest hp hc

/-- C8 witness: the general recognition statement at a concrete JSON
payload with no newline around it. -/
theorem fenced_block_recognized_witness :
    findFencedBlock
        ([] ++ "```json".data ++ "\x7b\"a\":1\x7d".data ++ "```".data ++ []) =
      some (stripWs "\x7b\"a\":1\x7d".data, List.length ([] : Chars),
        List.length ([] : Chars) + 7 + "\x7b\"a\":1\x7d".data.length + 3) :=
  fenced_block_recognized [] "\x7b\"a\":1\x7d".data [] (by decide) (by decide)

/-- C8 counterexample: a fence with no newline (indeed no whitespace at
all) after the `json` token is recognized by `JSON_BLOCK_PATTERN`, contrary
to the claim that such a fence is not recognized as a fenced block. -/
theorem fence_without_newline_recognized_cex :
    findFencedBlock "```json\x7b\"a\":1\x7d```".data =
      some ("\x7b\"a\":1\x7d".data, 0, 17) ∧
    '\n' ∉ "```json\x7b\"a\":1\x7d```".data := by
  refine ⟨by decide, by decide⟩

/-- Head of a non-empty `dropWhile` result does not satisfy the predicate. -/
theorem dropWhile_eq_cons_head {p : Char → Bool} :
    ∀ {l : Chars} {d : Char} {t : Chars}, l.dropWhile p = d :: t → p d = false := by
  intro l
  induction l with
  | nil => intro d t h; cases h
  | cons x xs ih =>
    intro d t h
    rw [List.dropWhile_cons] at h
    by_cases hx : p x = true
    · rw [if_pos hx] at h; exact ih h
    · rw [if_neg hx] at h
      injection h with h1 h2
      subst h1
      exact Bool.eq_false_iff.mpr hx

/-- Trailing strip keeps a head that fails the predicate. -/
theorem dropTrail_cons_head {p : Char → Bool} (d : Char) (t : Chars)
    (hd : p d = false) : ∃ z, dropTrail p (d :: t) = d :: z := by
  unfold dropTrail
  rw [List.reverse_cons]
  have hz : ∃ z, (t.reverse ++ [d]).dropWhile p = z ++ [d] := by
    induction t.reverse with
    | nil =>
      refine ⟨[], ?_⟩
      simp [hd]
    | cons x xs ih =>
      obtain ⟨z, hz⟩ := ih
      by_cases hx : p x = true
      · refine ⟨z, ?_⟩
        rw [List.cons_append, List.dropWhile_cons, if_pos hx]
        exact hz
      · exact ⟨x :: (xs ++ [d]).dropLast, by
          rw [List.cons_append, List.dropWhile_cons, if_neg hx]
          simp⟩
  obtain ⟨z, hz⟩ := hz
  rw [hz, List.reverse_append]
  exact ⟨z.reverse, by simp⟩

/-- Leading strip is a no-op after a full strip of a leading-stripped list. -/
theorem dropWhile_dropTrail {p : Char → Bool} (s : Chars) :
    (dropTrail p (s.dropWhile p)).dropWhile p = dropTrail p (s.dropWhile p) := by
  cases hx : s.dropWhile p with
  | nil => simp [dropTrail]
  | cons d t =>
    have hd : p d = false := dropWhile_eq_cons_head hx
    obtain ⟨z, hz⟩ := dropTrail_cons_head d t hd
    rw [hz, List.dropWhile_cons, if_neg (by simp [hd])]

/-- Trailing strip is idempotent. -/
theorem dropTrail_idem {p : Char → Bool} (l : Chars) :
    dropTrail p (dropTrail p l) = dropTrail p l := by
  unfold dropTrail
  rw [List.reverse_reverse, List.dropWhile_idempotent]

/-- Python `str.strip()` is idempotent. -/
theorem stripWs_idem (s : Chars) : stripWs (stripWs s) = stripWs s := by
  unfold stripWs
  rw [dropWhile_dropTrail, dropTrail_idem]

/-- Lemma: `dropWhile` across an append whose left part survives non-empty. -/
theorem dropWhile_append_ne {p : Char → Bool} :
    ∀ {l₁ : Chars} (l₂ : Chars) {d : Char} {t : Chars},
      l₁.dropWhile p = d :: t → (l₁ ++ l₂).dropWhile p = (d :: t) ++ l₂ := by
  intro l₁
  induction l₁ with
  | nil => intro l₂ d t h; cases h
  | cons x xs ih =>
    intro l₂ d t h
    rw [List.dropWhile_cons] at h
    rw [List.cons_append, List.dropWhile_cons]
    by_cases hx : p x = true
    · rw [if_pos hx] at h ⊢
      exact ih l₂ h
    · rw [if_neg hx] at h ⊢
      injection h with h1 h2
      subst h1
      subst h2
      rfl

/-- Lemma: `dropWhile` across an append whose left part is entirely dropped. -/
theorem dropWhile_append_nil {p : Char → Bool} :
    ∀ {l₁ : Chars} (l₂ : Chars), l₁.dropWhile p = [] →
      (l₁ ++ l₂).dropWhile p = l₂.dropWhile p := by
  intro l₁
  induction l₁ with
  | nil => intro l₂ h; rfl
  | cons x xs ih =>
    intro l₂ h
    rw [List.dropWhile_cons] at h
    rw [List.cons_append, List.dropWhile_cons]
    by_cases hx : p x = true
    · rw [if_pos hx] at h ⊢
      exact ih l₂ h
    · rw [if_neg hx] at h
      cases h

/-- A trailing character satisfying the predicate is stripped. -/
theorem dropTrail_append_singleton {p : Char → Bool} (x : Chars) {d : Char}
    (hd : p d = true) : dropTrail p (x ++ [d]) = dropTrail p x := by
  unfold dropTrail
  rw [List.reverse_append]
  simp only [List.reverse_cons, List.reverse_nil, List.nil_append,
    List.singleton_append]
  rw [List.dropWhile_cons, if_pos hd]

/-- Stripping the regex group `\n` + payload + `\n` equals stripping the
payload. -/
theorem stripWs_newline_wrap (c : Chars) :
    stripWs ('\n' :: (c ++ ['\n'])) = stripWs c := by
  unfold stripWs
  rw [List.dropWhile_cons, if_pos (by decide)]
  cases hx : c.dropWhile isPyWs with
  | nil =>
    rw [dropWhile_append_nil _ hx]
    rfl
  | cons d t =>
    rw [dropWhile_append_ne _ hx]
    exact dropTrail_append_singleton _ (by decide)

/-- Stripping the candidate before `json.loads` is absorbed by the strip the
group extraction already performed. -/
theorem loadsValidate_stripWs (c : Chars) :
    loadsValidate (stripWs c) = loadsValidate c := by
  unfold loadsValidate
  rw [stripWs_idem]

/-- A candidate that parses and validates has a non-empty strip (Python
truthiness of the block). -/
theorem loadsValidate_ok_ne_nil {c : Chars} (h : (loadsValidate c).isOk = true) :
    stripWs c ≠ [] := by
  intro hnil
  unfold loadsValidate at h
  rw [hnil] at h
  have hjp : jsonParse ([] : Chars) = Except.error "Expecting value" := rfl
  rw [hjp] at h
  simp [Except.isOk, Except.toBool] at h

/-- C1: for raw text consisting of a well-formed fenced JSON block whose
content strict-parses and passes schema validation, surrounded by non-empty
backtick-free prose, `extract_simulation_payload` returns exactly the
validated record encoded in the block, the surrounding prose with the
fenced span excised and trimmed, and an empty warnings list. -/
theorem extract_wellformed_fenced_roundtrip (p1 c p2 : Chars)
    (hp1 : '`' ∉ p1) (hp2 : '`' ∉ p2) (hc : '`' ∉ c)
    (hprose : stripWs (p1 ++ p2) ≠ [])
    (hok : (loadsValidate c).isOk = true) :
    extract_simulation_payload
        (p1 ++ "```json\n".data ++ c ++ "\n```".data ++ p2) =
      (stripWs (p1 ++ p2), (loadsValidate c).toOption, []) := by
  obtain ⟨rec, hrec⟩ : ∃ rec, loadsValidate c = Except.ok rec := by
    cases hlv : loadsValidate c with
    | ok rec => exact ⟨rec, rfl⟩
    | error e => rw [hlv] at hok; simp [Except.isOk, Except.toBool] at hok
  have hmid : '`' ∉ ('\n' :: (c ++ ['\n'])) := by
    intro hm
    simp only [List.mem_cons, List.mem_append, List.mem_singleton] at hm
    rcases hm with h | h | h
    · exact absurd h (by decide)
    · exact hc h
    · exact absurd h (by decide)
  have hshape : p1 ++ "```json\n".data ++ c ++ "\n```".data ++ p2 =
      p1 ++ "```json".data ++ ('\n' :: (c ++ ['\n'])) ++ "```".data ++ p2 := by
    simp
  have hfb := findFencedBlock_decompose p1 ('\n' :: (c ++ ['\n'])) p2 hp1 hmid
  have hfjb : find_json_block
      (p1 ++ "```json".data ++ ('\n' :: (c ++ ['\n'])) ++ "```".data ++ p2) =
      (some (stripWs c),
       some (p1.length, p1.length + 7 + ('\n' :: (c ++ ['\n'])).length + 3)) := by
    unfold find_json_block
    rw [hfb, stripWs_newline_wrap]
  obtain ⟨d, ds, hds⟩ : ∃ d ds, stripWs c = d :: ds := by
    cases hsc : stripWs c with
    | nil => exact absurd hsc (loadsValidate_ok_ne_nil hok)
    | cons d ds => exact ⟨d, ds, rfl⟩
  have htp : try_parse_json (d :: ds)
      [fun value => value, sanitize_json, coerce_python_literals] =
      (some rec, Option.none) := by
    have hlv : loadsValidate (d :: ds) = Except.ok rec := by
      rw [← hds, loadsValidate_stripWs, hrec]
    unfold try_parse_json tryParseGo
    simp only [hlv]
  have htake : (p1 ++ "```json".data ++ ('\n' :: (c ++ ['\n'])) ++ "```".data
      ++ p2).take p1.length = p1 := by
    have hre : p1 ++ "```json".data ++ ('\n' :: (c ++ ['\n'])) ++ "```".data
        ++ p2 = p1 ++ ("```json".data ++ (('\n' :: (c ++ ['\n'])) ++
          ("```".data ++ p2))) := by
      simp
    rw [hre]
    exact List.take_left p1 _
  have hdropmd : (p1 ++ "```json".data ++ ('\n' :: (c ++ ['\n'])) ++ "```".data
      ++ p2).drop (p1.length + 7 + ('\n' :: (c ++ ['\n'])).length + 3) = p2 := by
    have hre : p1 ++ "```json".data ++ ('\n' :: (c ++ ['\n'])) ++ "```".data
        ++ p2 = (p1 ++ "```json".data ++ ('\n' :: (c ++ ['\n'])) ++
          "```".data) ++ p2 := by
      simp
    have hlen : (p1 ++ "```json".data ++ ('\n' :: (c ++ ['\n'])) ++
        "```".data).length = p1.length + 7 + ('\n' :: (c ++ ['\n'])).length + 3 := by
      have h7 : ("```json".data).length = 7 := rfl
      have h3 : ("```".data).length = 3 := rfl
      simp only [List.length_append, h7, h3, List.length_cons]
    rw [hre, ← hlen]
    exact List.drop_left _ _
  rw [hshape]
  unfold extract_simulation_payload
  rw [hfjb, hds]
  simp only [htp, htake, hdropmd, if_neg hprose, hrec]
  simp [Except.toOption]

set_option maxRecDepth 100000 in
/-- C1 witness: a complete valid fenced record between two prose lines
round-trips with no warnings. -/
theorem extract_wellformed_fenced_roundtrip_witness :
    extract_simulation_payload
        ("Intro".data ++ "```json\n".data ++ cJsonWitness.data ++
          "\n```".data ++ " Fin".data) =
      (stripWs ("Intro".data ++ " Fin".data),
       (loadsValidate cJsonWitness.data).toOption, []) :=
  extract_wellformed_fenced_roundtrip "Intro".data cJsonWitness.data
    " Fin".data (by decide) (by decide) (by decide) (by decide) (by decide)

end LexSim
